import Mathlib

/-!
Verification of the quarter-reconciliation core of the PJT-API repository
(files caterpillar_FINAL_WORKING.py, cat2.py, caterpillar.py).

The pandas DataFrame of extracted facts is modelled as a list of FactRow
records.  Numeric fact values are modelled as integers (source values are
whole-currency floats; every property checked here is purely additive, so
exact integer arithmetic is a faithful abstraction of the float arithmetic).
Dates are modelled as calendar dates with an exact day-number function, so
day-count comparisons agree with pandas Timestamp differences.  Missing
values (NaN / NaT in pandas) are modelled with Option.
-/

/-- Calendar date (pandas Timestamp).  Only year/month/day resolution is used
by the source. -/
structure Date where
  year : Int
  month : Int
  day : Int
deriving DecidableEq, Repr

/-- Day number of a civil date (days since 1970-01-01), the standard
days-from-civil algorithm.  Models pandas Timestamp subtraction, whose
.days is the exact calendar-day difference. -/
def Date.toDays (d : Date) : Int :=
  let y : Int := if d.month ≤ 2 then d.year - 1 else d.year
  let era : Int := (if 0 ≤ y then y else y - 399) / 400
  let yoe : Int := y - era * 400
  let mp : Int := if 2 < d.month then d.month - 3 else d.month + 9
  let doy : Int := (153 * mp + 2) / 5 + d.day - 1
  let doe : Int := yoe * 365 + yoe / 4 - yoe / 100 + doy
  era * 146097 + doe - 719468

/-- Strict order on dates (chronological). -/
def Date.ltB (a b : Date) : Bool :=
  a.toDays < b.toDays

/-- Reflexive order on dates (chronological). -/
def Date.leB (a b : Date) : Bool :=
  a.toDays ≤ b.toDays

/-- One day after the given date (pandas Timedelta(days=1) addition),
via straightforward calendar increment. -/
def Date.nextDay (d : Date) : Date :=
  let leap : Bool := (d.year % 4 == 0 && d.year % 100 != 0) || d.year % 400 == 0
  let dim : Int :=
    if d.month == 2 then (if leap then 29 else 28)
    else if d.month == 4 || d.month == 6 || d.month == 9 || d.month == 11 then 30
    else 31
  if d.day < dim then { d with day := d.day + 1 }
  else if d.month < 12 then { year := d.year, month := d.month + 1, day := 1 }
  else { year := d.year + 1, month := 1, day := 1 }

/-- One row of the extracted-facts DataFrame.  Provenance columns that are
copied verbatim and never read by the reconciliation logic (accession,
filing_date, context_id, dimension, decimals, unit, report_date) are
omitted; form is the provenance column the logic branches on. -/
structure FactRow where
  tag : Option String
  value : Int
  segment : Option String
  business_segment : Option String
  start_date : Option Date
  end_date : Option Date
  instant_date : Option Date
  form : String
deriving DecidableEq, Repr

/-- The helper _is_calendar_ytd of all three scripts: a period is YTD for a
calendar fiscal year when start_date is January 1 of end_date's year; rows
with a missing date are not YTD. -/
def isCalendarYTD (s e : Option Date) : Bool :=
  match s, e with
  | some sd, some ed => sd.month == 1 && sd.day == 1 && sd.year == ed.year
  | _, _ => false

/-- Row-level view of _is_calendar_ytd. -/
def FactRow.isYTD (r : FactRow) : Bool :=
  isCalendarYTD r.start_date r.end_date

/-- The discrete-quarter day-count test of _extract_discrete_quarters in
caterpillar.py: period length (end - start).days is at most 100; rows with
a missing date never pass (they are filtered out before the test). -/
def isDiscreteSpan (s e : Option Date) : Bool :=
  match s, e with
  | some sd, some ed => ed.toDays - sd.toDays ≤ 100
  | _, _ => false

/-! ## Generic list helpers (pandas primitives) -/

/-- Worker for uniqueFirst: keeps the first occurrence of each value not
already seen. -/
def uniqueFirstAux {α : Type} [DecidableEq α] (seen : List α) : List α → List α
  | [] => []
  | a :: l => if a ∈ seen then uniqueFirstAux seen l else a :: uniqueFirstAux (a :: seen) l

/-- pandas Series.unique(): distinct values in order of first occurrence. -/
def uniqueFirst {α : Type} [DecidableEq α] (l : List α) : List α :=
  uniqueFirstAux [] l

/-- Three-way comparison lifted to Option with missing values ordered last,
matching the default na_position of pandas sort_values. -/
def cmpOptionBy {α : Type} (cmp : α → α → Ordering) : Option α → Option α → Ordering :=
  fun a b =>
    match a, b with
    | none, none => .eq
    | none, some _ => .gt
    | some _, none => .lt
    | some x, some y => cmp x y

/-- Three-way chronological comparison of dates via day numbers. -/
def cmpDate (x y : Date) : Ordering :=
  if x.toDays < y.toDays then .lt
  else if y.toDays < x.toDays then .gt
  else .eq

/-- Chronological comparison of possibly-missing dates (missing last). -/
def cmpOptDate : Option Date → Option Date → Ordering :=
  cmpOptionBy cmpDate

/-- Reflexive chronological order on possibly-missing dates. -/
def optDateLe (a b : Option Date) : Bool :=
  cmpOptDate a b != .gt

/-! ## Q4 synthesis: calculate_q4_data of caterpillar_FINAL_WORKING.py and
cat2.py.  The two versions share the per-group logic verbatim and differ
only in the segment universe they iterate over. -/

/-- Segment matching used throughout calculate_q4_data: a row belongs to the
segment when its label is exactly that segment, or when the requested
segment is the Consolidated sentinel and the row's label is missing. -/
def segMatches (rowSeg : Option String) (segment : String) : Bool :=
  rowSeg == some segment || (segment == "Consolidated" && rowSeg == none)

/-- The end_date window test of calculate_q4_data: strictly after
December 31 of the prior year and at most the annual row's end date. -/
def inFiscalWindow (fiscal_year : Int) (fy_end : Date) (e : Option Date) : Bool :=
  match e with
  | some ed => Date.ltB ⟨fiscal_year - 1, 12, 31⟩ ed && Date.leB ed fy_end
  | none => false

/-- The q_subset of calculate_q4_data: quarterly rows of the (tag, segment)
group whose end dates fall inside the fiscal year of the annual row. -/
def quarterlyWindow (quarterly : List FactRow) (tag segment : String)
    (fiscal_year : Int) (fy_end : Date) : List FactRow :=
  quarterly.filter (fun r =>
    r.tag == some tag && segMatches r.segment segment &&
      inFiscalWindow fiscal_year fy_end r.end_date)

/-- q_subset.sort_values(end_date).iloc[-1]: the row attaining the maximum
end date, taking the last such row in case of ties (stable sort). -/
def lastByEndDate (l : List FactRow) : Option FactRow :=
  l.foldl (fun acc r =>
    match acc with
    | none => some r
    | some a => if optDateLe a.end_date r.end_date then some r else some a) none

/-- The synthetic Q4 flow record of calculate_q4_data (form tag, derived
start date one day past the latest quarterly end, annual end date). -/
def q4FlowRecord (tag segment : String) (fy_end : Date) (q3_end : Option Date)
    (q4_value : Int) : FactRow :=
  { tag := some tag, value := q4_value, segment := some segment,
    business_segment := none, start_date := q3_end.map Date.nextDay,
    end_date := some fy_end, instant_date := none,
    form := "10-Q (Q4 Calculated)" }

/-- Records contributed by one annual row in the (tag, segment) iteration of
calculate_q4_data: a copied balance record when the row is instant, else a
derived Q4 flow record when quarterly data exists in the fiscal year
(YTD-aware path subtracts the latest-dated row of the window; otherwise the
sum of the window is subtracted), else nothing. -/
def q4RecordsForAnnualRow (quarterly : List FactRow) (tag segment : String)
    (annual_row : FactRow) : List FactRow :=
  match annual_row.instant_date with
  | some fy_end =>
    [ { tag := some tag, value := annual_row.value, segment := some segment,
        business_segment := none, start_date := none, end_date := none,
        instant_date := some fy_end, form := "10-K (Q4)" } ]
  | none =>
    match annual_row.end_date with
    | none => []
    | some fy_end =>
      let q_subset := quarterlyWindow quarterly tag segment fy_end.year fy_end
      if q_subset.isEmpty then []
      else
        let q3_end := (lastByEndDate q_subset).bind (·.end_date)
        let q4_value :=
          if q_subset.any (·.isYTD) then
            annual_row.value - ((lastByEndDate q_subset).map (·.value)).getD 0
          else
            annual_row.value - (q_subset.map (·.value)).sum
        [ q4FlowRecord tag segment fy_end q3_end q4_value ]

/-- annual_subset of calculate_q4_data: 10-K rows of the (tag, segment)
group. -/
def annualRowsFor (annual : List FactRow) (tag segment : String) : List FactRow :=
  annual.filter (fun r => r.tag == some tag && segMatches r.segment segment)

/-- The full list of synthesized records of calculate_q4_data, iterating
unique tags (first-occurrence order, pandas unique) and the given segment
universe. -/
def q4Records (segments : List String) (df : List FactRow) : List FactRow :=
  let quarterly := df.filter (fun r => r.form == "10-Q")
  let annual := df.filter (fun r => r.form == "10-K")
  (uniqueFirst (df.filterMap (·.tag))).flatMap (fun tag =>
    segments.flatMap (fun segment =>
      (annualRowsFor annual tag segment).flatMap
        (q4RecordsForAnnualRow quarterly tag segment)))

/-- The segment universe of cat2.py's calculate_q4_data: all distinct
segment labels of the store, with Consolidated appended when absent. -/
def uniqueSegmentsCat2 (df : List FactRow) : List String :=
  let segs := uniqueFirst (df.filterMap (·.segment))
  if "Consolidated" ∈ segs then segs else segs ++ ["Consolidated"]

/-- The quarterly window of a flow group inside the full store: 10-Q rows
of the (tag, segment) group with end dates in the fiscal year. -/
def q4Window (df : List FactRow) (t s : String) (fy_end : Date) : List FactRow :=
  quarterlyWindow (df.filter (fun r => r.form == "10-Q")) t s fy_end.year fy_end

/-- The final sort_values([end_date, instant_date, tag, segment]) key order
of calculate_q4_data (ascending, missing values last). -/
def rowSortLe (a b : FactRow) : Bool :=
  match cmpOptDate a.end_date b.end_date with
  | .lt => true | .gt => false
  | .eq =>
    match cmpOptDate a.instant_date b.instant_date with
    | .lt => true | .gt => false
    | .eq =>
      match cmpOptionBy compare a.tag b.tag with
      | .lt => true | .gt => false
      | .eq => cmpOptionBy compare a.segment b.segment ≠ .gt

/-- The final reordering of calculate_q4_data, modelled as a stable sort by
the pandas key (pandas itself uses an unstable quicksort; every property
proved below is invariant under the resulting permutation). -/
def sortRows (l : List FactRow) : List FactRow :=
  List.insertionSort (fun a b => rowSortLe a b = true) l

/-- calculate_q4_data of caterpillar_FINAL_WORKING.py: synthesizes Q4
records for the Consolidated segment only, appends them to the store and
reorders it. -/
def calculate_q4_data_fw (df : List FactRow) : List FactRow :=
  if df.isEmpty then df
  else
    let recs := q4Records ["Consolidated"] df
    if recs.isEmpty then df else sortRows (df ++ recs)

/-- calculate_q4_data of cat2.py: identical per-group logic, but iterating
every distinct segment of the store plus Consolidated. -/
def calculate_q4_data_cat2 (df : List FactRow) : List FactRow :=
  if df.isEmpty then df
  else
    let recs := q4Records (uniqueSegmentsCat2 df) df
    if recs.isEmpty then df else sortRows (df ++ recs)

/-! ## Discrete-quarter normalization: make_quarters_discrete of
caterpillar_FINAL_WORKING.py, _normalize_quarters_to_discrete of cat2.py
and of caterpillar.py, and _extract_discrete_quarters of caterpillar.py. -/

/-- Insertion of an element into a list sorted by a boolean order. -/
def orderedInsertB {α : Type} (le : α → α → Bool) (a : α) : List α → List α
  | [] => [a]
  | b :: l => if le a b then a :: b :: l else b :: orderedInsertB le a l

/-- Stable insertion sort by a boolean order; models pandas sort_values and
the sorted group order of pandas groupby. -/
def insertionSortB {α : Type} (le : α → α → Bool) : List α → List α
  | [] => []
  | a :: l => orderedInsertB le a (insertionSortB le l)

/-- Python tuple order on (tag, segment, year) group keys. -/
def keyLe (a b : String × String × Int) : Bool :=
  decide (a.1 < b.1) || (a.1 == b.1 &&
    (decide (a.2.1 < b.2.1) || (a.2.1 == b.2.1 && decide (a.2.2 ≤ b.2.2))))

/-- Grouping key of make_quarters_discrete: (tag, segment, end_date year);
pandas groupby drops rows with a missing key component. -/
def mqdKey (r : FactRow) : Option (String × String × Int) :=
  match r.tag, r.segment, r.end_date with
  | some t, some s, some e => some (t, s, e.year)
  | _, _, _ => none

/-- Rows of one (tag, segment, year) group, in store order. -/
def rowsOfKey (q : List FactRow) (k : String × String × Int) : List FactRow :=
  q.filter (fun r => mqdKey r == some k)

/-- np.diff(values, prepend=prev) applied in place: each row's value becomes
its value minus the previous row's original value. -/
def diffValues (prev : Int) : List FactRow → List FactRow
  | [] => []
  | r :: rest => { r with value := r.value - prev } :: diffValues r.value rest

/-- g.sort_values(end_date): stable chronological sort of a group. -/
def sortByEnd (l : List FactRow) : List FactRow :=
  insertionSortB (fun a b => optDateLe a.end_date b.end_date) l

/-- One group of make_quarters_discrete: sorted by end date, differenced
when any member is YTD. -/
def mqdGroup (q : List FactRow) (k : String × String × Int) : List FactRow :=
  let g := sortByEnd (rowsOfKey q k)
  if g.any (·.isYTD) then diffValues 0 g else g

/-- form == 10-Q with a present end date (real quarterly rows; the
calculated-Q4 form tag differs from the bare 10-Q string, so it is
excluded). -/
def isRealQ (r : FactRow) : Bool :=
  r.form == "10-Q" && r.end_date.isSome

/-- The sorted distinct group keys of a row set (pandas groupby default key
order). -/
def mqdKeys (q : List FactRow) : List (String × String × Int) :=
  insertionSortB keyLe (uniqueFirst (q.filterMap mqdKey))

/-- make_quarters_discrete of caterpillar_FINAL_WORKING.py.  Real 10-Q rows
are grouped by (tag, segment, year) and each group containing a YTD member
is differenced; the returned store is the concatenation of the non-10-Q
rows, the non-YTD 10-Q rows, and all processed groups (the code keeps the
second and third parts side by side).  When no group exists (the out list
stays empty) the store is returned unchanged. -/
def make_quarters_discrete (df : List FactRow) : List FactRow :=
  if df.isEmpty then df
  else
    let q := df.filter isRealQ
    let keys := mqdKeys q
    if keys.isEmpty then df
    else
      (df.filter (fun r => !isRealQ r)) ++ (q.filter (fun r => !r.isYTD)) ++
        keys.flatMap (mqdGroup q)

/-- Substring test on lists (the needle occurs contiguously). -/
def listHasInfix {α : Type} [DecidableEq α] (pat : List α) : List α → Bool
  | [] => decide (pat = [])
  | a :: l => pat.isPrefixOf (a :: l) || listHasInfix pat l

/-- pandas str.contains with a plain-text pattern. -/
def strContainsSubstr (s pat : String) : Bool :=
  listHasInfix pat.data s.data

/-- Case-insensitive containment (str.contains with case=False, or contains
on lowered strings). -/
def strContainsCI (s pat : String) : Bool :=
  strContainsSubstr s.toLower pat.toLower

/-- _normalize_quarters_to_discrete of cat2.py: keeps rows whose form
contains 10-Q and whose end date is present, fills missing segments with
Consolidated, groups by (tag, segment, year) and differences every group
with more than one row, assuming all 10-Q flow data is YTD (the first row
keeps its value via fillna).  Rows with a missing tag are dropped by the
groupby. -/
def normalize_quarters_to_discrete_cat2 (df_quarters : List FactRow) : List FactRow :=
  if df_quarters.isEmpty then df_quarters
  else
    let q := (df_quarters.filter (fun r =>
        strContainsSubstr r.form "10-Q" && r.end_date.isSome)).map
      (fun r => { r with segment := some (r.segment.getD "Consolidated") })
    let keys := insertionSortB keyLe (uniqueFirst (q.filterMap mqdKey))
    keys.flatMap (fun k =>
      let g := sortByEnd (rowsOfKey q k)
      if 1 < g.length then diffValues 0 g else g)

/-- Python tuple order on (tag, segment, business-segment key, year). -/
def keyLe4 (a b : String × String × String × Int) : Bool :=
  decide (a.1 < b.1) || (a.1 == b.1 &&
    (decide (a.2.1 < b.2.1) || (a.2.1 == b.2.1 &&
      (decide (a.2.2.1 < b.2.2.1) || (a.2.2.1 == b.2.2.1 &&
        decide (a.2.2.2 ≤ b.2.2.2))))))

/-- Grouping key of caterpillar.py's _normalize_quarters_to_discrete:
(tag, segment, business_segment filled with a sentinel, year). -/
def catNormKey (r : FactRow) : Option (String × String × String × Int) :=
  match r.tag, r.segment, r.end_date with
  | some t, some s, some e => some (t, s, r.business_segment.getD "__none__", e.year)
  | _, _, _ => none

/-- Rows of one caterpillar.py normalization group, in store order. -/
def rowsOfKeyCat (q : List FactRow) (k : String × String × String × Int) : List FactRow :=
  q.filter (fun r => catNormKey r == some k)

/-- _normalize_quarters_to_discrete of caterpillar.py: like cat2's, but
grouping additionally by business segment and differencing only the groups
that actually contain a YTD member. -/
def normalize_quarters_to_discrete_cat (df_quarters : List FactRow) : List FactRow :=
  if df_quarters.isEmpty then df_quarters
  else
    let q := (df_quarters.filter (fun r =>
        strContainsSubstr r.form "10-Q" && r.end_date.isSome)).map
      (fun r => { r with segment := some (r.segment.getD "Consolidated") })
    let keys := insertionSortB keyLe4 (uniqueFirst (q.filterMap catNormKey))
    keys.flatMap (fun k =>
      let g := sortByEnd (rowsOfKeyCat q k)
      if g.any (·.isYTD) then diffValues 0 g else g)

/-- _extract_discrete_quarters of caterpillar.py: among rows with both
dates, spans of at most 100 days are kept as reported; longer (YTD) spans
are kept only for (tag, end_date) pairs not covered by a kept discrete row
and are then differenced by the YTD normalizer. -/
def extract_discrete_quarters (flow_df : List FactRow) : List FactRow :=
  let q := flow_df.filter (fun r => r.start_date.isSome && r.end_date.isSome)
  if q.isEmpty then flow_df
  else
    let discrete_df := q.filter (fun r => isDiscreteSpan r.start_date r.end_date)
    let ytd_df := q.filter (fun r => !isDiscreteSpan r.start_date r.end_date)
    if !discrete_df.isEmpty then
      if !ytd_df.isEmpty then
        let ytd_needed := ytd_df.filter (fun r =>
          !(discrete_df.any (fun d => d.tag == r.tag && d.end_date == r.end_date)))
        if !ytd_needed.isEmpty then
          discrete_df ++ normalize_quarters_to_discrete_cat ytd_needed
        else discrete_df
      else discrete_df
    else normalize_quarters_to_discrete_cat ytd_df

/-! ## Period classifier (spec section 4.1) assembled from the source
predicates: _is_calendar_ytd (all three scripts) and the 100-day discrete
mask of _extract_discrete_quarters.  The reconciliation engine consults
_is_calendar_ytd first (calculate_q4_data and the normalizers branch on
is_ytd alone), so YTD takes precedence on spans satisfying both tests. -/

/-- The three labels of the period classifier. -/
inductive PeriodLabel
  | discrete
  | yearToDate
  | other
deriving DecidableEq, Repr

/-- Classification of a duration by the source predicates, YTD first as in
the reconciliation engine; rows with a missing date satisfy neither
predicate and fall to Other. -/
def classifyPeriod (s e : Option Date) : PeriodLabel :=
  if isCalendarYTD s e then .yearToDate
  else if isDiscreteSpan s e then .discrete
  else .other

/-! ## Candidate-tag resolution of create_statement_pivot.  Three variants
exist.  caterpillar.py (lines 1016-1047) tries an ordered candidate list
with exact segment matching, then with case-insensitive substring segment
matching, and has no concept-name fallback.  cat2.py (lines 913-961) adds
an any-segment pass for unsuffixed lines and, for the three cash-flow
total lines only, a last-resort substring match on the concept name.
caterpillar_FINAL_WORKING.py (lines 776-805) does not iterate candidates
at all: it matches the candidate list as a set via tag.isin, so the facts
of every matching candidate land in one subset, and falls back to a
case-insensitive keyword match on the tag for every line. -/

/-- First non-empty result of a per-candidate query, in candidate order
(the for/break loops of create_statement_pivot). -/
def firstNonEmptyMatch (cands : List String) (f : String → List FactRow) : List FactRow :=
  match cands with
  | [] => []
  | c :: rest =>
    let sub := f c
    if sub.isEmpty then firstNonEmptyMatch rest f else sub

/-- Exact tag and exact segment-label match. -/
def exactSegMatches (df : List FactRow) (cand target_segment : String) : List FactRow :=
  df.filter (fun r => r.tag == some cand && r.segment == some target_segment)

/-- Exact tag with case-insensitive substring match on the segment label
(str.contains with case=False, na=False). -/
def containsSegMatches (df : List FactRow) (cand target_segment : String) : List FactRow :=
  df.filter (fun r => r.tag == some cand &&
    (match r.segment with
     | some s => strContainsCI s target_segment
     | none => false))

/-- Exact tag with segment in the Consolidated/empty set (the branch for
lines without a segment suffix). -/
def consolidatedMatches (df : List FactRow) (cand : String) : List FactRow :=
  df.filter (fun r => r.tag == some cand &&
    (r.segment == some "Consolidated" || r.segment == some ""))

/-- Exact tag regardless of segment (cat2's last consolidated fallback). -/
def anySegMatches (df : List FactRow) (cand : String) : List FactRow :=
  df.filter (fun r => r.tag == some cand)

/-- The three cash-flow subtotal base keys that enable the concept-name
fallback. -/
def cfTotalKeys : List String :=
  [ "NetCashProvidedByUsedInOperatingActivities",
    "NetCashProvidedByUsedInInvestingActivities",
    "NetCashProvidedByUsedInFinancingActivities" ]

/-- The cash-flow total safety net: substring match of the lowered base key
inside the lowered tag, preferring Consolidated/empty segment rows. -/
def conceptNameFallback (df : List FactRow) (base_key : String) : List FactRow :=
  let sub := df.filter (fun r =>
    match r.tag with
    | some t => strContainsCI t base_key
    | none => false)
  let sub_pref := sub.filter (fun r =>
    r.segment == some "Consolidated" || r.segment == some "")
  if sub_pref.isEmpty then sub else sub_pref

/-- The per-line fact resolution of cat2.py's create_statement_pivot: the
prioritized candidate loops, then the cash-flow-totals-only concept-name
fallback.  target_segment is the mapped segment for suffixed lines and
none for consolidated lines. -/
def resolveLine (df : List FactRow) (candidate_tags : List String)
    (target_segment : Option String) (base_key : String)
    (is_cashflow : Bool) : List FactRow :=
  let selected :=
    match target_segment with
    | some ts =>
      let exact := firstNonEmptyMatch candidate_tags (fun c => exactSegMatches df c ts)
      if exact.isEmpty then
        firstNonEmptyMatch candidate_tags (fun c => containsSegMatches df c ts)
      else exact
    | none =>
      let cons := firstNonEmptyMatch candidate_tags (consolidatedMatches df)
      if cons.isEmpty then firstNonEmptyMatch candidate_tags (anySegMatches df)
      else cons
  let is_cf_total := is_cashflow && decide (base_key ∈ cfTotalKeys)
  if selected.isEmpty && is_cf_total then conceptNameFallback df base_key
  else selected

/-- The per-line fact resolution of caterpillar.py's create_statement_pivot
(lines 1016-1047): for/break loops over the candidates, exact segment match
first, then the case-insensitive substring segment match for suffixed
lines; unsuffixed (consolidated) lines have the single Consolidated/empty
loop and no further fallback; no concept-name fallback exists. -/
def resolveLineCat (df : List FactRow) (candidate_tags : List String)
    (target_segment : Option String) : List FactRow :=
  match target_segment with
  | some ts =>
    let exact := firstNonEmptyMatch candidate_tags (fun c => exactSegMatches df c ts)
    if exact.isEmpty then
      firstNonEmptyMatch candidate_tags (fun c => containsSegMatches df c ts)
    else exact
  | none => firstNonEmptyMatch candidate_tags (consolidatedMatches df)

/-- Strict in-order selection: the first candidate (in list order) whose
exact query is non-empty wins outright; otherwise the first candidate
whose substring-segment query is non-empty wins; otherwise nothing.  To be
proved equal to resolveLineCat. -/
def resolveLineCatSpec (df : List FactRow) (candidate_tags : List String)
    (target_segment : Option String) : List FactRow :=
  match target_segment with
  | some ts =>
    match candidate_tags.find? (fun c => !(exactSegMatches df c ts).isEmpty) with
    | some c => exactSegMatches df c ts
    | none =>
      match candidate_tags.find? (fun c => !(containsSegMatches df c ts).isEmpty) with
      | some c => containsSegMatches df c ts
      | none => []
  | none =>
    match candidate_tags.find? (fun c => !(consolidatedMatches df c).isEmpty) with
    | some c => consolidatedMatches df c
    | none => []

/-- Exact tag keyword match: tag contains base_key case-insensitively
(tag.str.contains with case False, regex False, na False). -/
def tagKeywordMatches (df : List FactRow) (base_key : String) : List FactRow :=
  df.filter (fun r =>
    match r.tag with
    | some t => strContainsCI t base_key
    | none => false)

/-- The per-line fact resolution of caterpillar_FINAL_WORKING.py's
create_statement_pivot (lines 776-805).  The candidate list is matched as
a set by tag.isin(candidate_tags), so no per-candidate iteration happens
and the facts of every matching candidate are combined in one subset.  The
caller has already filled null segments with Consolidated (line 733), so
df stands for that df_filtered. -/
def resolveLineFW (df : List FactRow) (candidate_tags : List String)
    (target_segment : Option String) (base_key : String) : List FactRow :=
  let isinTag : FactRow → Bool := fun r =>
    candidate_tags.any (fun c => r.tag == some c)
  match target_segment with
  | some ts =>
    let s1 := df.filter (fun r => isinTag r && r.segment == some ts)
    if s1.isEmpty then
      let s2 := df.filter (fun r => isinTag r &&
        (match r.segment with
         | some s => strContainsCI s ts
         | none => false))
      if s2.isEmpty then
        (tagKeywordMatches df base_key).filter (fun r => r.segment == some ts)
      else s2
    else s1
  | none =>
    let s1 := df.filter (fun r => isinTag r &&
      (r.segment == some "Consolidated" || r.segment == some ""))
    if s1.isEmpty then
      (tagKeywordMatches df base_key).filter (fun r =>
        r.segment == some "Consolidated" || r.segment == some "")
    else s1

/-! ## Concrete stores used by counterexamples and witnesses -/

/-- Shorthand for a quarterly flow row. -/
def mkQ (tag : String) (v : Int) (sy sm sd ey em ed : Int) : FactRow :=
  { tag := some tag, value := v, segment := some "Consolidated",
    business_segment := none, start_date := some ⟨sy, sm, sd⟩,
    end_date := some ⟨ey, em, ed⟩, instant_date := none, form := "10-Q" }

/-- Shorthand for an annual flow row. -/
def mkK (tag : String) (v : Int) (y : Int) : FactRow :=
  { tag := some tag, value := v, segment := some "Consolidated",
    business_segment := none, start_date := some ⟨y, 1, 1⟩,
    end_date := some ⟨y, 12, 31⟩, instant_date := none, form := "10-K" }

/-- The worked scenario of the specification: annual 1000, YTD quarters
200 / 450 / 700. -/
def specScenarioStore : List FactRow :=
  [ mkK "Revenues" 1000 2023,
    mkQ "Revenues" 200 2023 1 1 2023 3 31,
    mkQ "Revenues" 450 2023 1 1 2023 6 30,
    mkQ "Revenues" 700 2023 1 1 2023 9 30 ]

/-- Quarterly flow row with an explicit segment label. -/
def mkQS (tag seg : String) (v : Int) (sy sm sd ey em ed : Int) : FactRow :=
  { mkQ tag v sy sm sd ey em ed with segment := some seg }

/-- Annual flow row with an explicit segment label. -/
def mkKS (tag seg : String) (v : Int) (y : Int) : FactRow :=
  { mkK tag v y with segment := some seg }

/-- C1, input A: annual 1000; a YTD fact through June (450) and a
later-dated discrete (non-YTD) Q3 fact (250). -/
def c1StoreA : List FactRow :=
  [ mkK "R" 1000 2023,
    mkQ "R" 450 2023 1 1 2023 6 30,
    mkQ "R" 250 2023 7 1 2023 9 30 ]

/-- C1, input B: annual 1000; one discrete 89-day fact (200) and one
150-day fact (300) that is neither Discrete nor YearToDate. -/
def c1StoreB : List FactRow :=
  [ mkK "S" 1000 2023,
    mkQ "S" 200 2023 4 1 2023 6 29,
    mkQ "S" 300 2023 2 1 2023 7 1 ]

/-- C2: a two-quarter series of discrete (non-YTD) facts, values
100 and 110. -/
def c2Store : List FactRow :=
  [ mkQ "CF" 100 2023 4 1 2023 6 30,
    mkQ "CF" 110 2023 7 1 2023 9 30 ]

/-- C3: one (concept, end_date) pair carrying both a reported discrete
91-day fact (250) and a 272-day YTD fact (700). -/
def c3Store : List FactRow :=
  [ mkQ "CF" 250 2023 7 1 2023 9 30,
    mkQ "CF" 700 2023 1 1 2023 9 30 ]

/-- C4: a complete annual-plus-quarterly flow group tagged with an explicit
business segment rather than Consolidated. -/
def c4Store : List FactRow :=
  [ mkKS "R" "SegA" 1000 2023,
    mkQS "R" "SegA" 700 2023 1 1 2023 9 30 ]

/-- C5: annual 1000 with a two-point YTD series (200, 450); differencing
replaces the raw 450 value. -/
def c5Store : List FactRow :=
  [ mkK "R" 1000 2023,
    mkQ "R" 200 2023 1 1 2023 3 31,
    mkQ "R" 450 2023 1 1 2023 6 30 ]

/-- C6: an annual balance-sheet (instant) fact. -/
def c6Store : List FactRow :=
  [ { tag := some "Assets", value := 5000, segment := some "Consolidated",
      business_segment := none, start_date := none, end_date := none,
      instant_date := some ⟨2023, 12, 31⟩, form := "10-K" } ]

/-- C8, store A: a single YTD quarterly fact whose segment label is missing
(implicitly Consolidated). -/
def c8StoreA : List FactRow :=
  [ { tag := some "X", value := 450, segment := none, business_segment := none,
      start_date := some ⟨2023, 1, 1⟩, end_date := some ⟨2023, 6, 30⟩,
      instant_date := none, form := "10-Q" } ]

/-- C8, store B: store A plus one quarterly fact tagged with segment B;
the Consolidated-tagged facts of the two stores coincide. -/
def c8StoreB : List FactRow :=
  c8StoreA ++ [ mkQS "Y" "B" 50 2023 7 1 2023 9 30 ]

/-- C9: two Consolidated quarterly facts carrying the first and the second
candidate tag of a revenue line. -/
def c9Store : List FactRow :=
  [ mkQ "Revenues" 100 2023 1 1 2023 3 31,
    mkQ "SalesRevenueNet" 999 2023 1 1 2023 3 31 ]

/-- C10: an annual flow fact with no quarterly data at all. -/
def c10Store : List FactRow :=
  [ mkK "R" 1000 2023 ]

/-- The (X, A)-projection of the Q4 synthesis, computed from the
segment-A facts alone: annual 10-K rows of the group feed the per-row Q4
derivation against the segment-A quarterly rows. -/
def q4ProjA (afacts : List FactRow) (X A : String) : List FactRow :=
  (afacts.filter (fun r => r.form == "10-K" && r.tag == some X)).flatMap
    (q4RecordsForAnnualRow (afacts.filter (fun r => r.form == "10-Q")) X A)

/-- The (X, A)-projection of make_quarters_discrete, computed from the
segment-A facts alone: the non-10-Q rows of the group, the non-YTD 10-Q
rows of the group, and the processed (X, A, year) groups in sorted year
order. -/
def mqdProjA (afacts : List FactRow) (X : String) : List FactRow :=
  (afacts.filter (fun r => !isRealQ r && r.tag == some X)) ++
    ((afacts.filter isRealQ).filter (fun r => !r.isYTD && r.tag == some X)) ++
    (insertionSortB keyLe (uniqueFirst
        (((afacts.filter isRealQ).filter (fun r => r.tag == some X)).filterMap
          mqdKey))).flatMap
      (mqdGroup (afacts.filter isRealQ))

/-! # Theorems

Everything below is proof; all executable definitions are above. -/

/-- Sanity checks of the date model and classifier predicates. -/
example : isCalendarYTD (some ⟨2023, 1, 1⟩) (some ⟨2023, 3, 31⟩) = true := by decide
example : isDiscreteSpan (some ⟨2023, 1, 1⟩) (some ⟨2023, 3, 31⟩) = true := by decide
example : (Date.toDays ⟨2023, 3, 31⟩ - Date.toDays ⟨2023, 1, 1⟩) = 89 := by decide
example : (Date.toDays ⟨2023, 7, 1⟩ - Date.toDays ⟨2023, 2, 1⟩) = 150 := by decide
example : Date.nextDay ⟨2023, 12, 31⟩ = ⟨2024, 1, 1⟩ := by decide
example : Date.nextDay ⟨2023, 9, 30⟩ = ⟨2023, 10, 1⟩ := by decide

theorem mem_uniqueFirstAux {α : Type} [DecidableEq α] (x : α) :
    ∀ (l seen : List α), x ∈ uniqueFirstAux seen l ↔ x ∈ l ∧ x ∉ seen := by
  intro l
  induction l with
  | nil => intro seen; simp [uniqueFirstAux]
  | cons a t ih =>
    intro seen
    by_cases ha : a ∈ seen
    · rw [uniqueFirstAux, if_pos ha, ih]
      constructor
      · rintro ⟨hx, hs⟩; exact ⟨List.mem_cons_of_mem _ hx, hs⟩
      · rintro ⟨hx, hs⟩
        rcases List.mem_cons.mp hx with h | h
        · exact absurd (h ▸ ha) hs
        · exact ⟨h, hs⟩
    · rw [uniqueFirstAux, if_neg ha]
      by_cases hx : x = a
      · subst hx; simp [ha]
      · have hcons : (x ∈ a :: uniqueFirstAux (a :: seen) t) ↔
            x ∈ uniqueFirstAux (a :: seen) t := by
          simp [hx]
        rw [hcons, ih]
        constructor
        · rintro ⟨ht, hs⟩
          exact ⟨List.mem_cons_of_mem _ ht, fun hmem => hs (List.mem_cons_of_mem _ hmem)⟩
        · rintro ⟨hxt, hs⟩
          rcases List.mem_cons.mp hxt with h | h
          · exact absurd h hx
          · refine ⟨h, fun hmem => ?_⟩
            rcases List.mem_cons.mp hmem with h2 | h2
            · exact hx h2
            · exact hs h2

theorem mem_uniqueFirst {α : Type} [DecidableEq α] (x : α) (l : List α) :
    x ∈ uniqueFirst l ↔ x ∈ l := by
  rw [uniqueFirst, mem_uniqueFirstAux]
  simp

theorem nodup_uniqueFirstAux {α : Type} [DecidableEq α] :
    ∀ (l seen : List α), (uniqueFirstAux seen l).Nodup := by
  intro l
  induction l with
  | nil => intro seen; simp [uniqueFirstAux]
  | cons a t ih =>
    intro seen
    by_cases ha : a ∈ seen
    · rw [uniqueFirstAux, if_pos ha]; exact ih seen
    · rw [uniqueFirstAux, if_neg ha]
      refine List.nodup_cons.mpr ⟨?_, ih _⟩
      intro hmem
      exact ((mem_uniqueFirstAux a t _).mp hmem).2 (List.mem_cons_self a seen)

theorem nodup_uniqueFirst {α : Type} [DecidableEq α] (l : List α) :
    (uniqueFirst l).Nodup :=
  nodup_uniqueFirstAux l []

example :
    (q4Records ["Consolidated"] specScenarioStore).map (·.value) = [300] := by
  decide

example :
    insertionSortB (fun a b => decide (a ≤ b))
      ((make_quarters_discrete (calculate_q4_data_fw specScenarioStore)).map
        (·.value)) = [200, 250, 250, 300, 1000] := by
  decide

/-- C1 counterexample: the claim computes Q4 as annual minus the
latest-dated YearToDate fact (input A: 1000 - 450 = 550) or annual minus
the sum of the Discrete facts only (input B: 1000 - 200 = 800); the code
instead subtracts the latest-dated fact of the whole window regardless of
its classification (A: 1000 - 250 = 750) and the sum of the whole window
regardless of classification (B: 1000 - 500 = 500), so no record with the
claimed value exists in either output. -/
theorem C1_counterexample :
    ((c1StoreA.filter (fun r => r.isYTD && r.form == "10-Q")).map (·.value) = [450] ∧
      (q4Records ["Consolidated"] c1StoreA).map (·.value) = [750] ∧
      ¬ ∃ rec ∈ q4Records ["Consolidated"] c1StoreA,
          rec.form = "10-Q (Q4 Calculated)" ∧ rec.value = 1000 - 450) ∧
    (c1StoreB.all (fun r => !(r.form == "10-Q" && r.isYTD)) = true ∧
      ((c1StoreB.filter (fun r =>
          r.form == "10-Q" && isDiscreteSpan r.start_date r.end_date)).map
        (·.value) = [200]) ∧
      (q4Records ["Consolidated"] c1StoreB).map (·.value) = [500] ∧
      ¬ ∃ rec ∈ q4Records ["Consolidated"] c1StoreB,
          rec.form = "10-Q (Q4 Calculated)" ∧ rec.value = 1000 - 200) := by
  decide

/-- C2 evaluation at the failing input: a YTD-free two-row discrete series
(values 100, 110) is not left unchanged: make_quarters_discrete of
caterpillar_FINAL_WORKING.py returns every row of the group twice, and
cat2.py's _normalize_quarters_to_discrete differences the series to
(100, 10) although no member is YearToDate; caterpillar.py's sibling
_normalize_quarters_to_discrete shows the intended no-op. -/
theorem C2_evaluation :
    (make_quarters_discrete c2Store).map (·.value) = [100, 110, 100, 110] ∧
    make_quarters_discrete c2Store ≠ c2Store ∧
    (normalize_quarters_to_discrete_cat2 c2Store).map (·.value) = [100, 10] ∧
    (normalize_quarters_to_discrete_cat c2Store).map (·.value) = [100, 110] ∧
    c2Store.all (fun r => !r.isYTD) = true := by
  decide

/-- C4 counterexample: a complete flow group tagged with business segment
SegA (annual plus quarterly data present) gets no synthesized Q4 record
from caterpillar_FINAL_WORKING.py's calculate_q4_data, which iterates the
Consolidated segment only and returns the store unchanged. -/
theorem C4_counterexample :
    (∃ r ∈ c4Store, r.form = "10-K" ∧ r.segment = some "SegA" ∧
      r.end_date = some ⟨2023, 12, 31⟩) ∧
    (∃ r ∈ c4Store, r.form = "10-Q" ∧ r.segment = some "SegA") ∧
    q4Records ["Consolidated"] c4Store = [] ∧
    calculate_q4_data_fw c4Store = c4Store ∧
    ¬ ∃ rec ∈ calculate_q4_data_fw c4Store,
        rec.form = "10-Q (Q4 Calculated)" ∨ rec.form = "10-K (Q4)" := by
  decide

/-- C5 counterexample: after Q4 synthesis followed by discrete-quarter
normalization, the raw YTD record with value 450 is no longer present in
the store (its value was replaced by the differenced 250), so the composed
reconciliation output is not a superset of the raw input. -/
theorem C5_counterexample :
    mkQ "R" 450 2023 1 1 2023 6 30 ∈ c5Store ∧
    mkQ "R" 450 2023 1 1 2023 6 30 ∉
      make_quarters_discrete (calculate_q4_data_fw c5Store) := by
  decide

/-- C7 counterexample: the two iff conditions of the claim cannot be
satisfied together by any single-label classifier, because the span from
2023-01-01 to 2023-03-31 (89 days) is both January-1-anchored and at most
100 days, so the claimed classifier would have to return YearToDate and
Discrete at once. -/
theorem C7_counterexample :
    ¬ ∃ cls : Option Date → Option Date → PeriodLabel,
        (∀ s e, cls s e = PeriodLabel.yearToDate ↔ isCalendarYTD s e = true) ∧
        (∀ s e, cls s e = PeriodLabel.discrete ↔ isDiscreteSpan s e = true) := by
  rintro ⟨cls, h1, h2⟩
  have hy : cls (some ⟨2023, 1, 1⟩) (some ⟨2023, 3, 31⟩) = PeriodLabel.yearToDate :=
    (h1 _ _).mpr (by decide)
  have hd : cls (some ⟨2023, 1, 1⟩) (some ⟨2023, 3, 31⟩) = PeriodLabel.discrete :=
    (h2 _ _).mpr (by decide)
  rw [hy] at hd
  exact PeriodLabel.noConfusion hd

/-- C8 counterexample: the two stores agree on every Consolidated-tagged
fact (the single YTD fact with a missing segment label), yet the
(X, Consolidated) result of make_quarters_discrete differs: alone the fact
survives untouched, while in the presence of an unrelated segment-B fact
it is silently dropped (missing group keys fall outside every group and
the merge keeps only non-YTD rows and grouped rows). -/
theorem C8_counterexample :
    c8StoreA.filter (fun r => segMatches r.segment "Consolidated") =
      c8StoreB.filter (fun r => segMatches r.segment "Consolidated") ∧
    (make_quarters_discrete c8StoreA).filter
        (fun r => r.tag == some "X" && segMatches r.segment "Consolidated") ≠
      (make_quarters_discrete c8StoreB).filter
        (fun r => r.tag == some "X" && segMatches r.segment "Consolidated") := by
  decide

/-! ## Order properties of the chronological comparison -/

theorem cmpDate_gt_iff (x y : Date) : cmpDate x y = .gt ↔ y.toDays < x.toDays := by
  unfold cmpDate
  split_ifs with h1 h2
  · exact ⟨fun h => absurd h (by simp), fun h => absurd h1 (by omega)⟩
  · exact ⟨fun _ => h2, fun _ => rfl⟩
  · exact ⟨fun h => absurd h (by simp), fun h => absurd h h2⟩

theorem optDateLe_none_right (a : Option Date) : optDateLe a none = true := by
  cases a <;> rfl

theorem optDateLe_none_left (y : Date) : optDateLe none (some y) = false := rfl

theorem optDateLe_some_iff (x y : Date) :
    optDateLe (some x) (some y) = true ↔ x.toDays ≤ y.toDays := by
  constructor
  · intro h
    by_contra hlt
    have hgt : cmpDate x y = .gt := (cmpDate_gt_iff x y).mpr (by omega)
    simp [optDateLe, cmpOptDate, cmpOptionBy, hgt] at h
    exact absurd h (by decide)
  · intro h
    show (cmpDate x y != Ordering.gt) = true
    cases hc : cmpDate x y with
    | lt => rfl
    | eq => rfl
    | gt => exact absurd ((cmpDate_gt_iff x y).mp hc) (by omega)

theorem optDateLe_refl (a : Option Date) : optDateLe a a = true := by
  cases a with
  | none => rfl
  | some x => exact (optDateLe_some_iff x x).mpr le_rfl

theorem optDateLe_total (a b : Option Date) :
    optDateLe a b = true ∨ optDateLe b a = true := by
  cases a with
  | none => right; exact optDateLe_none_right b
  | some x =>
    cases b with
    | none => left; exact optDateLe_none_right _
    | some y =>
      rw [optDateLe_some_iff, optDateLe_some_iff]
      omega

theorem optDateLe_trans {a b c : Option Date}
    (hab : optDateLe a b = true) (hbc : optDateLe b c = true) :
    optDateLe a c = true := by
  cases c with
  | none => exact optDateLe_none_right a
  | some z =>
    cases b with
    | none => exact absurd hbc (by simp [optDateLe_none_left])
    | some y =>
      cases a with
      | none => exact absurd hab (by simp [optDateLe_none_left])
      | some x =>
        rw [optDateLe_some_iff] at *
        omega

/-- The fold of lastByEndDate returns a member of the accumulator-or-list
whose end date weakly dominates the accumulator and every list element. -/
theorem lastByEndDate_go (l : List FactRow) :
    ∀ a : FactRow,
      ∃ m, (l.foldl (fun acc r =>
          match acc with
          | none => some r
          | some x => if optDateLe x.end_date r.end_date then some r else some x)
          (some a)) = some m ∧
        (m = a ∨ m ∈ l) ∧ optDateLe a.end_date m.end_date = true ∧
        ∀ r ∈ l, optDateLe r.end_date m.end_date = true := by
  induction l with
  | nil =>
    intro a
    exact ⟨a, rfl, Or.inl rfl, optDateLe_refl _, by simp⟩
  | cons b t ih =>
    intro a
    by_cases h : optDateLe a.end_date b.end_date = true
    · obtain ⟨m, hfold, hmem, hle, hall⟩ := ih b
      refine ⟨m, ?_, ?_, ?_, ?_⟩
      · simpa [h] using hfold
      · rcases hmem with rfl | hm
        · exact Or.inr (List.mem_cons_self _ _)
        · exact Or.inr (List.mem_cons_of_mem _ hm)
      · exact optDateLe_trans h hle
      · intro r hr
        rcases List.mem_cons.mp hr with rfl | hrt
        · exact hle
        · exact hall r hrt
    · obtain ⟨m, hfold, hmem, hle, hall⟩ := ih a
      have hba : optDateLe b.end_date a.end_date = true := by
        rcases optDateLe_total a.end_date b.end_date with hh | hh
        · exact absurd hh h
        · exact hh
      refine ⟨m, ?_, ?_, ?_, ?_⟩
      · simpa [h] using hfold
      · rcases hmem with rfl | hm
        · exact Or.inl rfl
        · exact Or.inr (List.mem_cons_of_mem _ hm)
      · exact hle
      · intro r hr
        rcases List.mem_cons.mp hr with rfl | hrt
        · exact optDateLe_trans hba hle
        · exact hall r hrt

/-- On a non-empty list, lastByEndDate returns a member whose end date is
weakly latest (the iloc[-1] row of the stable end-date sort). -/
theorem lastByEndDate_spec (l : List FactRow) (hne : l ≠ []) :
    ∃ m, lastByEndDate l = some m ∧ m ∈ l ∧
      ∀ r ∈ l, optDateLe r.end_date m.end_date = true := by
  cases l with
  | nil => exact absurd rfl hne
  | cons a t =>
    obtain ⟨m, hfold, hmem, hle, hall⟩ := lastByEndDate_go t a
    refine ⟨m, ?_, ?_, ?_⟩
    · simpa [lastByEndDate] using hfold
    · rcases hmem with rfl | hm
      · exact List.mem_cons_self _ _
      · exact List.mem_cons_of_mem _ hm
    · intro r hr
      rcases List.mem_cons.mp hr with rfl | hrt
      · exact hle
      · exact hall r hrt

/-! ## Membership structure of the synthesized-record list -/

theorem isEmpty_false_of_ne_nil {α : Type} {l : List α} (h : l ≠ []) :
    l.isEmpty = false := by
  cases l with
  | nil => exact absurd rfl h
  | cons a t => rfl

theorem filter_filter_bool {α : Type} (p q : α → Bool) (l : List α) :
    (l.filter q).filter p = l.filter (fun a => q a && p a) := by
  induction l with
  | nil => rfl
  | cons a t ih => by_cases hq : q a <;> by_cases hp : p a <;> simp [hq, hp, ih]

theorem tag_mem_uniqueTags {df : List FactRow} {t : String}
    (h : ∃ r ∈ df, r.tag = some t) :
    t ∈ uniqueFirst (df.filterMap (·.tag)) := by
  rw [mem_uniqueFirst]
  obtain ⟨r, hr, ht⟩ := h
  exact List.mem_filterMap.mpr ⟨r, hr, ht⟩

theorem mem_annualRowsFor {annual : List FactRow} {t s : String} {ar : FactRow}
    (har : ar ∈ annual) (htag : ar.tag = some t)
    (hseg : segMatches ar.segment s = true) :
    ar ∈ annualRowsFor annual t s := by
  refine List.mem_filter.mpr ⟨har, ?_⟩
  simp [htag, hseg]

theorem mem_q4Records_intro {segments : List String} {df : List FactRow}
    {t s : String} {ar rec : FactRow}
    (htag_mem : ∃ r ∈ df, r.tag = some t) (hs : s ∈ segments)
    (har : ar ∈ df) (hform : ar.form = "10-K")
    (hartag : ar.tag = some t) (harseg : segMatches ar.segment s = true)
    (hrec : rec ∈ q4RecordsForAnnualRow (df.filter (fun r => r.form == "10-Q")) t s ar) :
    rec ∈ q4Records segments df := by
  simp only [q4Records]
  refine List.mem_flatMap.mpr ⟨t, tag_mem_uniqueTags htag_mem, ?_⟩
  refine List.mem_flatMap.mpr ⟨s, hs, ?_⟩
  refine List.mem_flatMap.mpr ⟨ar, ?_, hrec⟩
  exact mem_annualRowsFor (List.mem_filter.mpr ⟨har, by simp [hform]⟩) hartag harseg

theorem mem_q4Records_inv {segments : List String} {df rec : _}
    (h : rec ∈ q4Records segments df) :
    ∃ (t s : String) (ar : FactRow), ar ∈ df ∧ ar.form = "10-K" ∧
      rec ∈ q4RecordsForAnnualRow (df.filter (fun r => r.form == "10-Q")) t s ar := by
  simp only [q4Records] at h
  obtain ⟨t, _, h⟩ := List.mem_flatMap.mp h
  obtain ⟨s, _, h⟩ := List.mem_flatMap.mp h
  obtain ⟨ar, harf, h⟩ := List.mem_flatMap.mp h
  obtain ⟨har2, _⟩ := List.mem_filter.mp harf
  obtain ⟨har3, hf⟩ := List.mem_filter.mp har2
  exact ⟨t, s, ar, har3, by simpa using hf, h⟩

theorem q4RecordsForAnnualRow_shape {quarterly : List FactRow} {t s : String}
    {ar rec : FactRow}
    (h : rec ∈ q4RecordsForAnnualRow quarterly t s ar) :
    rec.tag = some t ∧ rec.segment = some s ∧
      (rec.form = "10-K (Q4)" ∨
        (rec.form = "10-Q (Q4 Calculated)" ∧
          ∃ fy_end : Date, ar.instant_date = none ∧ ar.end_date = some fy_end ∧
            rec.end_date = some fy_end ∧
            quarterlyWindow quarterly t s fy_end.year fy_end ≠ [])) := by
  simp only [q4RecordsForAnnualRow] at h
  split at h
  · simp only [List.mem_singleton] at h
    subst h
    exact ⟨rfl, rfl, Or.inl rfl⟩
  · rename_i heqinst
    split at h
    · simp at h
    · rename_i fy_end heqend
      split at h
      · simp at h
      · rename_i hne
        simp only [List.mem_singleton] at h
        subst h
        refine ⟨rfl, rfl, Or.inr ⟨rfl, fy_end, heqinst, heqend, rfl, ?_⟩⟩
        intro hnil
        exact hne (by rw [hnil]; rfl)

theorem consolidated_mem_uniqueSegmentsCat2 (df : List FactRow) :
    "Consolidated" ∈ uniqueSegmentsCat2 df := by
  by_cases h : "Consolidated" ∈ uniqueFirst (df.filterMap (·.segment)) <;>
    simp [uniqueSegmentsCat2, h]

theorem seg_mem_uniqueSegmentsCat2 {df : List FactRow} {r : FactRow} {s : String}
    (hr : r ∈ df) (hs : r.segment = some s) :
    s ∈ uniqueSegmentsCat2 df := by
  have hmem : s ∈ uniqueFirst (df.filterMap (·.segment)) :=
    (mem_uniqueFirst _ _).mpr (List.mem_filterMap.mpr ⟨r, hr, hs⟩)
  by_cases h : "Consolidated" ∈ uniqueFirst (df.filterMap (·.segment)) <;>
    simp [uniqueSegmentsCat2, h, hmem]

theorem segMatches_cases {os : Option String} {s : String}
    (h : segMatches os s = true) :
    os = some s ∨ (s = "Consolidated" ∧ os = none) := by
  unfold segMatches at h
  rw [Bool.or_eq_true] at h
  rcases h with h1 | h2
  · exact Or.inl (eq_of_beq h1)
  · rw [Bool.and_eq_true] at h2
    exact Or.inr ⟨eq_of_beq h2.1, eq_of_beq h2.2⟩

theorem seg_of_segMatches {df : List FactRow} {ar : FactRow} {s : String}
    (har : ar ∈ df) (h : segMatches ar.segment s = true) :
    s ∈ uniqueSegmentsCat2 df := by
  rcases segMatches_cases h with hs | ⟨rfl, _⟩
  · exact seg_mem_uniqueSegmentsCat2 har hs
  · exact consolidated_mem_uniqueSegmentsCat2 df

/-- The balance record of the instant branch is among the records of its
annual row. -/
theorem balance_rec_mem {quarterly : List FactRow} {t s : String}
    {ar : FactRow} {d : Date} (hinst : ar.instant_date = some d) :
    ({ tag := some t, value := ar.value, segment := some s,
       business_segment := none, start_date := none, end_date := none,
       instant_date := some d, form := "10-K (Q4)" } : FactRow) ∈
      q4RecordsForAnnualRow quarterly t s ar := by
  simp only [q4RecordsForAnnualRow, hinst]
  exact List.mem_singleton.mpr rfl

/-- The flow record of the duration branch is among the records of its
annual row whenever the quarterly window is non-empty. -/
theorem flow_rec_mem {quarterly : List FactRow} {t s : String}
    {ar : FactRow} {fy_end : Date}
    (hinst : ar.instant_date = none) (hend : ar.end_date = some fy_end)
    (hq : quarterlyWindow quarterly t s fy_end.year fy_end ≠ []) :
    q4FlowRecord t s fy_end
        ((lastByEndDate (quarterlyWindow quarterly t s fy_end.year fy_end)).bind
          (·.end_date))
        (if (quarterlyWindow quarterly t s fy_end.year fy_end).any (·.isYTD) then
          ar.value -
            ((lastByEndDate (quarterlyWindow quarterly t s fy_end.year fy_end)).map
              (·.value)).getD 0
        else
          ar.value -
            ((quarterlyWindow quarterly t s fy_end.year fy_end).map (·.value)).sum) ∈
      q4RecordsForAnnualRow quarterly t s ar := by
  simp only [q4RecordsForAnnualRow, hinst, hend]
  rw [isEmpty_false_of_ne_nil hq]
  simp

/-- C6: every Instant fact of an annual filing yields a synthesized Q4
balance record with identical value and instant date and the distinct
synthetic provenance tag, in cat2.py's engine which iterates every segment
of the store (the FINAL_WORKING variant restricts the same logic to the
Consolidated segment, the restriction recorded under C4). -/
theorem C6_theorem (df : List FactRow) (r : FactRow) (t : String) (d : Date)
    (hr : r ∈ df) (hform : r.form = "10-K") (htag : r.tag = some t)
    (hinst : r.instant_date = some d) :
    ∃ rec ∈ q4Records (uniqueSegmentsCat2 df) df,
      rec.tag = some t ∧ rec.value = r.value ∧ rec.instant_date = some d ∧
      rec.form = "10-K (Q4)" := by
  cases hsg : r.segment with
  | none =>
    exact ⟨_, mem_q4Records_intro ⟨r, hr, htag⟩ (consolidated_mem_uniqueSegmentsCat2 df)
        hr hform htag (by rw [hsg]; decide) (balance_rec_mem hinst),
      rfl, rfl, rfl, rfl⟩
  | some s0 =>
    exact ⟨_, mem_q4Records_intro ⟨r, hr, htag⟩ (seg_mem_uniqueSegmentsCat2 hr hsg)
        hr hform htag (by rw [hsg]; simp [segMatches]) (balance_rec_mem hinst),
      rfl, rfl, rfl, rfl⟩

/-- C6 witness at a concrete instant annual fact. -/
theorem C6_witness :
    ∃ rec ∈ q4Records (uniqueSegmentsCat2 c6Store) c6Store,
      rec.tag = some "Assets" ∧ rec.value = 5000 ∧
      rec.instant_date = some ⟨2023, 12, 31⟩ ∧ rec.form = "10-K (Q4)" :=
  C6_theorem c6Store
    { tag := some "Assets", value := 5000, segment := some "Consolidated",
      business_segment := none, start_date := none, end_date := none,
      instant_date := some ⟨2023, 12, 31⟩, form := "10-K" }
    "Assets" ⟨2023, 12, 31⟩ (by decide) rfl rfl rfl

/-- C4 (amended): coverage of cat2.py's engine — for every (concept,
segment) group, Consolidated or not, and every fiscal year with the
required inputs, a synthesized record exists: a copied balance record for
Instant annual facts and a derived Q4 record for Duration annual facts
with a non-empty quarterly window.  (caterpillar_FINAL_WORKING.py's
variant instead covers only the Consolidated segment — see the
counterexample.) -/
theorem C4_amended (df : List FactRow) (t s : String) (ar : FactRow)
    (har : ar ∈ df) (hform : ar.form = "10-K") (htag : ar.tag = some t)
    (hseg : segMatches ar.segment s = true) :
    (∀ d : Date, ar.instant_date = some d →
      ∃ rec ∈ q4Records (uniqueSegmentsCat2 df) df,
        rec.tag = some t ∧ rec.segment = some s ∧ rec.value = ar.value ∧
        rec.instant_date = some d ∧ rec.form = "10-K (Q4)") ∧
    (∀ fy_end : Date, ar.instant_date = none → ar.end_date = some fy_end →
      q4Window df t s fy_end ≠ [] →
      ∃ rec ∈ q4Records (uniqueSegmentsCat2 df) df,
        rec.tag = some t ∧ rec.segment = some s ∧ rec.end_date = some fy_end ∧
        rec.form = "10-Q (Q4 Calculated)") := by
  have hsmem : s ∈ uniqueSegmentsCat2 df := seg_of_segMatches har hseg
  constructor
  · intro d hinst
    exact ⟨_, mem_q4Records_intro ⟨ar, har, htag⟩ hsmem har hform htag hseg
        (balance_rec_mem hinst), rfl, rfl, rfl, rfl, rfl⟩
  · intro fy_end hinst hend hq
    exact ⟨_, mem_q4Records_intro ⟨ar, har, htag⟩ hsmem har hform htag hseg
        (flow_rec_mem hinst hend hq), rfl, rfl, rfl, rfl⟩

/-- C4 witness: the segment-tagged group of c4Store receives its Q4 record
from cat2.py's engine. -/
theorem C4_witness :
    ∃ rec ∈ q4Records (uniqueSegmentsCat2 c4Store) c4Store,
      rec.tag = some "R" ∧ rec.segment = some "SegA" ∧
      rec.end_date = some ⟨2023, 12, 31⟩ ∧
      rec.form = "10-Q (Q4 Calculated)" :=
  (C4_amended c4Store "R" "SegA" (mkKS "R" "SegA" 1000 2023)
      (by decide) rfl rfl (by decide)).2
    ⟨2023, 12, 31⟩ rfl rfl (by decide)

/-- C1 (amended): in the engines' Q4 derivation, when any fact of the
fiscal-year window classifies as YearToDate the synthesized value is the
annual total minus the value of a latest-dated fact of the window —
whatever that fact's own classification — and when no fact is YearToDate
it is the annual total minus the sum of all window facts, Discrete or not. -/
theorem C1_amended (df : List FactRow) (t s : String) (ar : FactRow) (fy_end : Date)
    (har : ar ∈ df) (hform : ar.form = "10-K") (htag : ar.tag = some t)
    (hseg : segMatches ar.segment s = true)
    (hinst : ar.instant_date = none) (hend : ar.end_date = some fy_end)
    (hq : q4Window df t s fy_end ≠ []) :
    ∃ rec ∈ q4Records (uniqueSegmentsCat2 df) df,
      rec.tag = some t ∧ rec.segment = some s ∧ rec.end_date = some fy_end ∧
      rec.form = "10-Q (Q4 Calculated)" ∧
      ((∃ qr ∈ q4Window df t s fy_end, qr.isYTD = true) →
        ∃ m ∈ q4Window df t s fy_end,
          (∀ r' ∈ q4Window df t s fy_end,
            optDateLe r'.end_date m.end_date = true) ∧
          rec.value = ar.value - m.value) ∧
      ((∀ qr ∈ q4Window df t s fy_end, qr.isYTD = false) →
        rec.value = ar.value - ((q4Window df t s fy_end).map (·.value)).sum) := by
  have hsmem : s ∈ uniqueSegmentsCat2 df := seg_of_segMatches har hseg
  refine ⟨_, mem_q4Records_intro ⟨ar, har, htag⟩ hsmem har hform htag hseg
      (flow_rec_mem hinst hend hq), rfl, rfl, rfl, rfl, ?_, ?_⟩
  · intro hyes
    have hany : (q4Window df t s fy_end).any (·.isYTD) = true := by
      obtain ⟨qr, hqr, hy⟩ := hyes
      exact List.any_eq_true.mpr ⟨qr, hqr, hy⟩
    obtain ⟨m, hlast, hmemm, hmax⟩ := lastByEndDate_spec _ hq
    refine ⟨m, hmemm, hmax, ?_⟩
    show (if (quarterlyWindow (df.filter (fun r => r.form == "10-Q")) t s
            fy_end.year fy_end).any (·.isYTD) then
          ar.value -
            ((lastByEndDate (quarterlyWindow (df.filter (fun r => r.form == "10-Q"))
              t s fy_end.year fy_end)).map (·.value)).getD 0
        else
          ar.value -
            ((quarterlyWindow (df.filter (fun r => r.form == "10-Q")) t s
              fy_end.year fy_end).map (·.value)).sum) = ar.value - m.value
    have hany' : (quarterlyWindow (df.filter (fun r => r.form == "10-Q")) t s
        fy_end.year fy_end).any (·.isYTD) = true := hany
    have hlast' : lastByEndDate (quarterlyWindow (df.filter (fun r => r.form == "10-Q"))
        t s fy_end.year fy_end) = some m := hlast
    rw [if_pos hany', hlast']
    rfl
  · intro hno
    have hany : (quarterlyWindow (df.filter (fun r => r.form == "10-Q")) t s
        fy_end.year fy_end).any (·.isYTD) = false := by
      rw [Bool.eq_false_iff]
      intro hcon
      obtain ⟨qr, hqr, hy⟩ := List.any_eq_true.mp hcon
      exact absurd hy (by rw [hno qr hqr]; simp)
    show (if (quarterlyWindow (df.filter (fun r => r.form == "10-Q")) t s
            fy_end.year fy_end).any (·.isYTD) then
          ar.value -
            ((lastByEndDate (quarterlyWindow (df.filter (fun r => r.form == "10-Q"))
              t s fy_end.year fy_end)).map (·.value)).getD 0
        else
          ar.value -
            ((quarterlyWindow (df.filter (fun r => r.form == "10-Q")) t s
              fy_end.year fy_end).map (·.value)).sum) =
      ar.value - ((q4Window df t s fy_end).map (·.value)).sum
    rw [hany]
    rfl

/-- C1 witness at the specification's worked scenario: the YTD path
applies and the latest-dated window fact (the 700 YTD fact through
September) is subtracted, giving 300. -/
theorem C1_witness :
    ∃ rec ∈ q4Records (uniqueSegmentsCat2 specScenarioStore) specScenarioStore,
      rec.tag = some "Revenues" ∧ rec.segment = some "Consolidated" ∧
      rec.end_date = some ⟨2023, 12, 31⟩ ∧
      rec.form = "10-Q (Q4 Calculated)" ∧
      ((∃ qr ∈ q4Window specScenarioStore "Revenues" "Consolidated" ⟨2023, 12, 31⟩,
          qr.isYTD = true) →
        ∃ m ∈ q4Window specScenarioStore "Revenues" "Consolidated" ⟨2023, 12, 31⟩,
          (∀ r' ∈ q4Window specScenarioStore "Revenues" "Consolidated" ⟨2023, 12, 31⟩,
            optDateLe r'.end_date m.end_date = true) ∧
          rec.value = 1000 - m.value) ∧
      ((∀ qr ∈ q4Window specScenarioStore "Revenues" "Consolidated" ⟨2023, 12, 31⟩,
          qr.isYTD = false) →
        rec.value = 1000 -
          ((q4Window specScenarioStore "Revenues" "Consolidated" ⟨2023, 12, 31⟩).map
            (·.value)).sum) :=
  C1_amended specScenarioStore "Revenues" "Consolidated" (mkK "Revenues" 1000 2023)
    ⟨2023, 12, 31⟩ (by decide) rfl rfl (by decide) rfl rfl (by decide)

/-- C10: data-sparsity handling of the Q4 engine — an annual row with
neither an instant date nor an end date contributes no record (facts with
missing period data are excluded); quarterly rows with a missing end date
never enter any fiscal-year window; and a group/year whose quarterly
window is empty gets no synthesized Q4 flow record at all (silent skip,
no failure — the embedding is a total function). -/
theorem C10_theorem :
    (∀ (quarterly : List FactRow) (t s : String) (ar : FactRow),
      ar.instant_date = none → ar.end_date = none →
      q4RecordsForAnnualRow quarterly t s ar = []) ∧
    (∀ (quarterly : List FactRow) (t s : String) (fy : Int) (fy_end : Date),
      quarterlyWindow quarterly t s fy fy_end =
        quarterlyWindow (quarterly.filter (fun r => r.end_date.isSome)) t s fy fy_end) ∧
    (∀ (segments : List String) (df : List FactRow) (t s : String) (fy_end : Date),
      q4Window df t s fy_end = [] →
      ¬ ∃ rec ∈ q4Records segments df,
          rec.form = "10-Q (Q4 Calculated)" ∧ rec.tag = some t ∧
          rec.segment = some s ∧ rec.end_date = some fy_end) := by
  refine ⟨?_, ?_, ?_⟩
  · intro quarterly t s ar h1 h2
    simp [q4RecordsForAnnualRow, h1, h2]
  · intro quarterly t s fy fy_end
    rw [quarterlyWindow, quarterlyWindow, filter_filter_bool]
    apply List.filter_congr
    intro r _
    cases he : r.end_date <;> simp [inFiscalWindow, he]
  · rintro segments df t s fy_end hwin ⟨rec, hmem, hform, htag, hsg, hend⟩
    obtain ⟨t', s', ar, _, _, hrec⟩ := mem_q4Records_inv hmem
    obtain ⟨rtag, rseg, hsh⟩ := q4RecordsForAnnualRow_shape hrec
    rcases hsh with hbal | ⟨_, fy', _, _, recend, hne⟩
    · rw [hform] at hbal
      exact absurd hbal (by decide)
    · rw [htag] at rtag
      injection rtag with ht'
      rw [hsg] at rseg
      injection rseg with hs'
      rw [hend] at recend
      injection recend with hfy
      subst ht'; subst hs'; subst hfy
      exact hne (by simpa [q4Window] using hwin)

/-- C10 witness: concrete instances of all three parts, including the
annual-only store with no quarterly data whose Q4 record is skipped. -/
theorem C10_witness :
    q4RecordsForAnnualRow [] "R" "Consolidated"
      { tag := some "R", value := 7, segment := none, business_segment := none,
        start_date := none, end_date := none, instant_date := none,
        form := "10-K" } = [] ∧
    quarterlyWindow c10Store "R" "Consolidated" 2023 ⟨2023, 12, 31⟩ =
      quarterlyWindow (c10Store.filter (fun r => r.end_date.isSome)) "R"
        "Consolidated" 2023 ⟨2023, 12, 31⟩ ∧
    ¬ ∃ rec ∈ q4Records (uniqueSegmentsCat2 c10Store) c10Store,
        rec.form = "10-Q (Q4 Calculated)" ∧ rec.tag = some "R" ∧
        rec.segment = some "Consolidated" ∧
        rec.end_date = some ⟨2023, 12, 31⟩ :=
  ⟨C10_theorem.1 [] "R" "Consolidated" _ rfl rfl,
   C10_theorem.2.1 c10Store "R" "Consolidated" 2023 ⟨2023, 12, 31⟩,
   C10_theorem.2.2 (uniqueSegmentsCat2 c10Store) c10Store "R" "Consolidated"
     ⟨2023, 12, 31⟩ (by decide)⟩

/-- C5 (amended): the Q4-synthesis stage alone is purely additive — each
row of the output store occurs exactly as often as in the input plus the
synthesized records (the final reordering is a permutation), and every
synthesized record carries one of the two synthetic provenance tags.  The
subsequent normalization stage is what breaks the superset property (see
the counterexample). -/
theorem C5_amended (df : List FactRow) (a : FactRow) :
    (calculate_q4_data_fw df).count a =
      df.count a + (q4Records ["Consolidated"] df).count a ∧
    (∀ rec ∈ q4Records ["Consolidated"] df,
      rec.form = "10-K (Q4)" ∨ rec.form = "10-Q (Q4 Calculated)") := by
  constructor
  · unfold calculate_q4_data_fw
    by_cases hdf : df.isEmpty = true
    · have hnil : df = [] := List.isEmpty_iff.mp hdf
      subst hnil
      simp [q4Records, uniqueFirst, uniqueFirstAux]
    · rw [if_neg hdf]
      by_cases hrec : (q4Records ["Consolidated"] df).isEmpty = true
      · have h0 : q4Records ["Consolidated"] df = [] := List.isEmpty_iff.mp hrec
        simp [hrec, h0]
      · rw [if_neg hrec, sortRows,
          (List.perm_insertionSort _ (df ++ q4Records ["Consolidated"] df)).count_eq,
          List.count_append]
  · intro rec hmem
    obtain ⟨t, s, ar, _, _, hrec⟩ := mem_q4Records_inv hmem
    rcases (q4RecordsForAnnualRow_shape hrec).2.2 with h | ⟨h, _⟩
    · exact Or.inl h
    · exact Or.inr h

/-- C5 witness: the count identity at the raw annual row of c5Store and
the provenance tag of its synthesized Q4 record. -/
theorem C5_witness :
    (calculate_q4_data_fw c5Store).count (mkK "R" 1000 2023) =
      c5Store.count (mkK "R" 1000 2023) +
        (q4Records ["Consolidated"] c5Store).count (mkK "R" 1000 2023) ∧
    ((q4FlowRecord "R" "Consolidated" ⟨2023, 12, 31⟩ (some ⟨2023, 6, 30⟩)
        550).form = "10-K (Q4)" ∨
      (q4FlowRecord "R" "Consolidated" ⟨2023, 12, 31⟩ (some ⟨2023, 6, 30⟩)
        550).form = "10-Q (Q4 Calculated)") :=
  ⟨(C5_amended c5Store (mkK "R" 1000 2023)).1,
   (C5_amended c5Store (mkK "R" 1000 2023)).2
     (q4FlowRecord "R" "Consolidated" ⟨2023, 12, 31⟩ (some ⟨2023, 6, 30⟩) 550)
     (by decide)⟩

/-- C7 (amended): the classifier is total and single-valued; YearToDate iff
the January-1 anchor test holds, Discrete iff the anchor test fails and
the 100-day span test holds (YTD takes precedence, as the engine consults
is_ytd first), and a missing date yields Other. -/
theorem C7_amended (s e : Option Date) :
    (classifyPeriod s e = PeriodLabel.yearToDate ↔ isCalendarYTD s e = true) ∧
    (classifyPeriod s e = PeriodLabel.discrete ↔
      (isCalendarYTD s e = false ∧ isDiscreteSpan s e = true)) ∧
    classifyPeriod none e = PeriodLabel.other ∧
    classifyPeriod s none = PeriodLabel.other ∧
    (classifyPeriod s e = PeriodLabel.discrete ∨
      classifyPeriod s e = PeriodLabel.yearToDate ∨
      classifyPeriod s e = PeriodLabel.other) := by
  refine ⟨?_, ?_, ?_, ?_, ?_⟩
  · unfold classifyPeriod
    by_cases h1 : isCalendarYTD s e = true
    · simp [h1]
    · by_cases h2 : isDiscreteSpan s e = true <;> simp [h1, h2]
  · unfold classifyPeriod
    by_cases h1 : isCalendarYTD s e = true
    · simp [h1]
    · by_cases h2 : isDiscreteSpan s e = true <;>
        simp [h1, h2, Bool.eq_false_iff]
  · unfold classifyPeriod
    have h1 : isCalendarYTD none e = false := by cases e <;> rfl
    have h2 : isDiscreteSpan none e = false := by cases e <;> rfl
    simp [h1, h2]
  · unfold classifyPeriod
    have h1 : isCalendarYTD s none = false := by cases s <;> rfl
    have h2 : isDiscreteSpan s none = false := by cases s <;> rfl
    simp [h1, h2]
  · unfold classifyPeriod
    by_cases h1 : isCalendarYTD s e = true
    · simp [h1]
    · by_cases h2 : isDiscreteSpan s e = true <;> simp [h1, h2]

/-- A for/break candidate loop equals selection by the first candidate
whose query is non-empty. -/
theorem firstNonEmptyMatch_eq (cands : List String) (f : String → List FactRow) :
    firstNonEmptyMatch cands f =
      match cands.find? (fun c => !(f c).isEmpty) with
      | some c => f c
      | none => [] := by
  induction cands with
  | nil => rfl
  | cons c rest ih =>
    simp only [firstNonEmptyMatch, List.find?_cons]
    by_cases h : (f c).isEmpty = true
    · simp [h, ih]
    · simp [h]

/-- Nonemptiness from a false isEmpty flag, the converse direction of
isEmpty_false_of_ne_nil. -/
theorem ne_nil_of_isEmpty_false {α : Type} {l : List α} (h : l.isEmpty = false) :
    l ≠ [] := by
  intro hnil
  rw [hnil] at h
  simp at h

/-- C9: the claimed in-order candidate resolution fails for
caterpillar_FINAL_WORKING's create_statement_pivot.  On c9Store with the
candidate list [Revenues, SalesRevenueNet], the first candidate already
yields a non-empty Consolidated match, yet the resolved subset contains
the later candidate's SalesRevenueNet fact, which the first candidate does
not match: tag.isin matches the candidate list as a set, so a later
candidate's facts are mixed in even when an earlier candidate matches. -/
theorem C9_counterexample :
    consolidatedMatches c9Store "Revenues" ≠ [] ∧
    mkQ "SalesRevenueNet" 999 2023 1 1 2023 3 31 ∈
      resolveLineFW c9Store ["Revenues", "SalesRevenueNet"] none "Revenues" ∧
    mkQ "SalesRevenueNet" 999 2023 1 1 2023 3 31 ∉
      consolidatedMatches c9Store "Revenues" := by
  decide

/-- C9 (amended): of the two cited resolutions, caterpillar.py's does try
the candidates strictly in list order — it equals first-non-empty
selection, the exact-segment pass before the substring-segment pass, with
no concept-name fallback — whereas caterpillar_FINAL_WORKING's matches the
candidate list as a set: every fact carrying any candidate's tag and the
requested segment label belongs to its resolved subset, so distinct
matching candidates' facts are combined. -/
theorem C9_amended (df : List FactRow) (cands : List String)
    (tgt : Option String) (ts base : String) (r : FactRow) (c : String)
    (hr : r ∈ df) (hc : c ∈ cands) (ht : r.tag = some c)
    (hs : r.segment = some ts) :
    resolveLineCat df cands tgt = resolveLineCatSpec df cands tgt ∧
    r ∈ resolveLineFW df cands (some ts) base := by
  constructor
  · unfold resolveLineCat resolveLineCatSpec
    cases tgt with
    | some u =>
      cases hfe : cands.find? (fun c => !(exactSegMatches df c u).isEmpty) with
      | some d =>
        have heq : firstNonEmptyMatch cands (fun c => exactSegMatches df c u) =
            exactSegMatches df d u := by
          rw [firstNonEmptyMatch_eq, hfe]
        have hne : exactSegMatches df d u ≠ [] := by
          have hp := List.find?_some hfe
          exact ne_nil_of_isEmpty_false (by simpa using hp)
        simp [heq, hne, hfe]
      | none =>
        have heq1 : firstNonEmptyMatch cands (fun c => exactSegMatches df c u) =
            [] := by
          rw [firstNonEmptyMatch_eq, hfe]
        cases hfc : cands.find? (fun c => !(containsSegMatches df c u).isEmpty) with
        | some d =>
          have heq2 : firstNonEmptyMatch cands
              (fun c => containsSegMatches df c u) = containsSegMatches df d u := by
            rw [firstNonEmptyMatch_eq, hfc]
          simp [heq1, heq2, hfe, hfc]
        | none =>
          have heq2 : firstNonEmptyMatch cands
              (fun c => containsSegMatches df c u) = [] := by
            rw [firstNonEmptyMatch_eq, hfc]
          simp [heq1, heq2, hfe, hfc]
    | none =>
      cases hfe : cands.find? (fun c => !(consolidatedMatches df c).isEmpty) with
      | some d =>
        have heq : firstNonEmptyMatch cands (consolidatedMatches df) =
            consolidatedMatches df d := by
          rw [firstNonEmptyMatch_eq, hfe]
        simp [heq, hfe]
      | none =>
        have heq1 : firstNonEmptyMatch cands (consolidatedMatches df) = [] := by
          rw [firstNonEmptyMatch_eq, hfe]
        simp [heq1, hfe]
  · have hmem : r ∈ df.filter (fun x =>
        (cands.any (fun c => x.tag == some c)) && x.segment == some ts) := by
      rw [List.mem_filter]
      refine ⟨hr, ?_⟩
      rw [Bool.and_eq_true]
      constructor
      · rw [List.any_eq_true]
        exact ⟨c, hc, by simp [ht]⟩
      · simp [hs]
    have hne : (df.filter (fun x =>
        (cands.any (fun c => x.tag == some c)) && x.segment == some ts)).isEmpty
          = false := by
      refine isEmpty_false_of_ne_nil ?_
      intro hnil
      rw [hnil] at hmem
      cases hmem
    simp only [resolveLineFW]
    rw [hne]
    simpa using hmem

/-- C9 witness: the amended resolution facts exercised on c9Store with a
single-candidate Consolidated line. -/
theorem C9_witness :
    resolveLineCat c9Store ["Revenues"] (some "Consolidated") =
        resolveLineCatSpec c9Store ["Revenues"] (some "Consolidated") ∧
      mkQ "Revenues" 100 2023 1 1 2023 3 31 ∈
        resolveLineFW c9Store ["Revenues"] (some "Consolidated") "Revenues" :=
  C9_amended c9Store ["Revenues"] (some "Consolidated") "Consolidated" "Revenues"
    (mkQ "Revenues" 100 2023 1 1 2023 3 31) "Revenues"
    (by decide) (by decide) (by decide) (by decide)

theorem mem_orderedInsertB {α : Type} (le : α → α → Bool) (a x : α) :
    ∀ l : List α, x ∈ orderedInsertB le a l ↔ x = a ∨ x ∈ l := by
  intro l
  induction l with
  | nil => simp [orderedInsertB]
  | cons b u ih =>
    by_cases h : le a b = true
    · simp [orderedInsertB, h]
    · simp only [orderedInsertB, if_neg h, List.mem_cons, ih]
      tauto

theorem mem_insertionSortB {α : Type} (le : α → α → Bool) (x : α) :
    ∀ l : List α, x ∈ insertionSortB le l ↔ x ∈ l := by
  intro l
  induction l with
  | nil => simp [insertionSortB]
  | cons a u ih =>
    simp only [insertionSortB, mem_orderedInsertB, ih, List.mem_cons]

theorem filter_eq_nil_of {α : Type} {p : α → Bool} {l : List α}
    (h : ∀ a ∈ l, p a = false) : l.filter p = [] := by
  induction l with
  | nil => rfl
  | cons a u ih =>
    rw [List.filter_cons, h a (List.mem_cons_self a u)]
    exact ih (fun b hb => h b (List.mem_cons_of_mem a hb))

/-- Differencing rewrites only the value column. -/
theorem diffValues_fields {r' : FactRow} :
    ∀ (prev : Int) (l : List FactRow), r' ∈ diffValues prev l →
      ∃ r ∈ l, r'.tag = r.tag ∧ r'.end_date = r.end_date ∧
        r'.segment = r.segment ∧ r'.start_date = r.start_date ∧
        r'.instant_date = r.instant_date ∧ r'.form = r.form := by
  intro prev l
  induction l generalizing prev with
  | nil => intro h; simp [diffValues] at h
  | cons a u ih =>
    intro h
    rcases List.mem_cons.mp h with rfl | hmem
    · exact ⟨a, List.mem_cons_self a u, rfl, rfl, rfl, rfl, rfl, rfl⟩
    · obtain ⟨r, hr, hfields⟩ := ih a.value hmem
      exact ⟨r, List.mem_cons_of_mem a hr, hfields⟩

/-- Every output row of caterpillar.py's YTD normalizer shares its tag and
end date with some input row (only value and the filled segment change). -/
theorem normalize_cat_tag_end {l : List FactRow} {r' : FactRow}
    (h : r' ∈ normalize_quarters_to_discrete_cat l) :
    ∃ r ∈ l, r'.tag = r.tag ∧ r'.end_date = r.end_date := by
  unfold normalize_quarters_to_discrete_cat at h
  by_cases hl : l.isEmpty = true
  · rw [if_pos hl] at h
    exact ⟨r', h, rfl, rfl⟩
  · rw [if_neg hl] at h
    obtain ⟨k, _, hk⟩ := List.mem_flatMap.mp h
    have hg : ∀ g : List FactRow,
        (∀ x ∈ g, ∃ r ∈ l, x.tag = r.tag ∧ x.end_date = r.end_date) →
        r' ∈ (if g.any (·.isYTD) then diffValues 0 g else g) →
        ∃ r ∈ l, r'.tag = r.tag ∧ r'.end_date = r.end_date := by
      intro g hget hmem
      by_cases hytd : g.any (·.isYTD) = true
      · rw [if_pos hytd] at hmem
        obtain ⟨x, hx, htag, hend, _⟩ := diffValues_fields 0 g hmem
        obtain ⟨r, hr, ht2, he2⟩ := hget x hx
        exact ⟨r, hr, htag.trans ht2, hend.trans he2⟩
      · rw [if_neg hytd] at hmem
        exact hget r' hmem
    refine hg _ ?_ hk
    intro x hx
    have hx2 : x ∈ rowsOfKeyCat
        ((l.filter (fun r =>
            strContainsSubstr r.form "10-Q" && r.end_date.isSome)).map
          (fun r => { r with segment := some (r.segment.getD "Consolidated") })) k := by
      have := (mem_insertionSortB _ x _).mp hx
      exact this
    obtain ⟨hxq, _⟩ := List.mem_filter.mp hx2
    obtain ⟨r0, hr0, hmap⟩ := List.mem_map.mp hxq
    obtain ⟨hr0l, _⟩ := List.mem_filter.mp hr0
    exact ⟨r0, hr0l, by rw [← hmap], by rw [← hmap]⟩

/-- C3: precedence of directly reported discrete values in
_extract_discrete_quarters — for a (concept, end_date) pair that carries
both a reported discrete (at most 100-day, non-YTD) fact and a YTD fact,
the rows retained for that pair are exactly the reported discrete rows,
unchanged; no YTD-derived (differenced) value survives for the pair. -/
theorem C3_theorem (flow_df : List FactRow) (t : Option String) (e : Date)
    (hdisc : ∃ r ∈ flow_df, r.start_date.isSome = true ∧ r.end_date = some e ∧
      r.tag = t ∧ isDiscreteSpan r.start_date r.end_date = true ∧ r.isYTD = false)
    (hytd : ∃ r ∈ flow_df, r.start_date.isSome = true ∧ r.end_date = some e ∧
      r.tag = t ∧ isDiscreteSpan r.start_date r.end_date = false ∧ r.isYTD = true) :
    (extract_discrete_quarters flow_df).filter
        (fun r => r.tag == t && r.end_date == some e) =
      ((flow_df.filter (fun r => r.start_date.isSome && r.end_date.isSome)).filter
          (fun r => isDiscreteSpan r.start_date r.end_date)).filter
        (fun r => r.tag == t && r.end_date == some e) := by
  obtain ⟨d0, hd0, hs0, he0, ht0, hspan0, _⟩ := hdisc
  obtain ⟨y0, hy0, hys0, hye0, hyt0, hyspan0, _⟩ := hytd
  have hd0q : d0 ∈ flow_df.filter (fun r => r.start_date.isSome && r.end_date.isSome) :=
    List.mem_filter.mpr ⟨hd0, by rw [hs0, he0]; rfl⟩
  have hy0q : y0 ∈ flow_df.filter (fun r => r.start_date.isSome && r.end_date.isSome) :=
    List.mem_filter.mpr ⟨hy0, by rw [hys0, hye0]; rfl⟩
  have hqne : flow_df.filter (fun r => r.start_date.isSome && r.end_date.isSome) ≠ [] :=
    List.ne_nil_of_mem hd0q
  have hd0disc : d0 ∈ (flow_df.filter
      (fun r => r.start_date.isSome && r.end_date.isSome)).filter
      (fun r => isDiscreteSpan r.start_date r.end_date) :=
    List.mem_filter.mpr ⟨hd0q, hspan0⟩
  have hdiscne : (flow_df.filter
      (fun r => r.start_date.isSome && r.end_date.isSome)).filter
      (fun r => isDiscreteSpan r.start_date r.end_date) ≠ [] :=
    List.ne_nil_of_mem hd0disc
  have hy0ytd : y0 ∈ (flow_df.filter
      (fun r => r.start_date.isSome && r.end_date.isSome)).filter
      (fun r => !isDiscreteSpan r.start_date r.end_date) :=
    List.mem_filter.mpr ⟨hy0q, by rw [hyspan0]; rfl⟩
  have hytdne : (flow_df.filter
      (fun r => r.start_date.isSome && r.end_date.isSome)).filter
      (fun r => !isDiscreteSpan r.start_date r.end_date) ≠ [] :=
    List.ne_nil_of_mem hy0ytd
  simp only [extract_discrete_quarters]
  rw [isEmpty_false_of_ne_nil hqne]
  simp only [Bool.false_eq_true, if_false, isEmpty_false_of_ne_nil hdiscne,
    isEmpty_false_of_ne_nil hytdne, Bool.not_false, if_true]
  -- the remaining branch splits on whether any uncovered YTD rows exist
  by_cases hneed : ((flow_df.filter
      (fun r => r.start_date.isSome && r.end_date.isSome)).filter
      (fun r => !isDiscreteSpan r.start_date r.end_date)).filter
      (fun r =>
        !(((flow_df.filter (fun r => r.start_date.isSome && r.end_date.isSome)).filter
            (fun r => isDiscreteSpan r.start_date r.end_date)).any
          (fun d => d.tag == r.tag && d.end_date == r.end_date))) = []
  · rw [List.isEmpty_iff.mpr hneed]
    simp
  · rw [isEmpty_false_of_ne_nil hneed]
    simp only [Bool.not_false, if_true, List.filter_append]
    have hnil : (normalize_quarters_to_discrete_cat
        (((flow_df.filter (fun r => r.start_date.isSome && r.end_date.isSome)).filter
            (fun r => !isDiscreteSpan r.start_date r.end_date)).filter
          (fun r =>
            !(((flow_df.filter
                (fun r => r.start_date.isSome && r.end_date.isSome)).filter
                (fun r => isDiscreteSpan r.start_date r.end_date)).any
              (fun d => d.tag == r.tag && d.end_date == r.end_date))))).filter
        (fun r => r.tag == t && r.end_date == some e) = [] := by
      apply filter_eq_nil_of
      intro a ha
      obtain ⟨r, hr, hatag, haend⟩ := normalize_cat_tag_end ha
      obtain ⟨_, hnotany⟩ := List.mem_filter.mp hr
      by_contra hcon
      rw [Bool.not_eq_false, Bool.and_eq_true] at hcon
      obtain ⟨hat, hae⟩ := hcon
      have hrtag : r.tag = t := by rw [← hatag]; exact eq_of_beq hat
      have hrend : r.end_date = some e := by rw [← haend]; exact eq_of_beq hae
      have : (((flow_df.filter
          (fun r => r.start_date.isSome && r.end_date.isSome)).filter
          (fun r => isDiscreteSpan r.start_date r.end_date)).any
        (fun d => d.tag == r.tag && d.end_date == r.end_date)) = true := by
        refine List.any_eq_true.mpr ⟨d0, hd0disc, ?_⟩
        rw [hrtag, hrend, ht0, he0]
        simp
      rw [this] at hnotany
      exact absurd hnotany (by decide)
    rw [hnil, List.append_nil]

/-- C3 witness: in c3Store the pair (CF, 2023-09-30) has both a discrete
91-day fact and a 272-day YTD fact; the retained rows for the pair are
exactly the reported discrete rows. -/
theorem C3_witness :
    (extract_discrete_quarters c3Store).filter
        (fun r => r.tag == some "CF" && r.end_date == some ⟨2023, 9, 30⟩) =
      ((c3Store.filter (fun r => r.start_date.isSome && r.end_date.isSome)).filter
          (fun r => isDiscreteSpan r.start_date r.end_date)).filter
        (fun r => r.tag == some "CF" && r.end_date == some ⟨2023, 9, 30⟩) :=
  C3_theorem c3Store (some "CF") ⟨2023, 9, 30⟩ (by decide) (by decide)

/-! ## Generic list lemmas for the isolation proof -/

theorem flatMap_filter_push {α β : Type} (p : β → Bool) (f : α → List β) :
    ∀ l : List α, (l.flatMap f).filter p = l.flatMap (fun x => (f x).filter p) := by
  intro l
  induction l with
  | nil => rfl
  | cons a u ih => simp [List.flatMap_cons, List.filter_append, ih]

theorem flatMap_congr {α β : Type} {f g : α → List β} :
    ∀ {l : List α}, (∀ x ∈ l, f x = g x) → l.flatMap f = l.flatMap g := by
  intro l
  induction l with
  | nil => intro _; rfl
  | cons a u ih =>
    intro h
    simp only [List.flatMap_cons]
    rw [h a (List.mem_cons_self a u), ih (fun x hx => h x (List.mem_cons_of_mem a hx))]

theorem flatMap_nil_fun {α β : Type} :
    ∀ l : List α, l.flatMap (fun _ => ([] : List β)) = [] := by
  intro l
  induction l with
  | nil => rfl
  | cons a u ih => simp [List.flatMap_cons, ih]

/-- A flatMap whose body vanishes away from one element a either produces
the a-block once (when a occurs, necessarily once by Nodup) or nothing. -/
theorem flatMap_single {α β : Type} [DecidableEq α] {g : α → List β} {a : α} :
    ∀ {l : List α}, l.Nodup → (∀ b ∈ l, b ≠ a → g b = []) →
      l.flatMap g = if a ∈ l then g a else [] := by
  intro l
  induction l with
  | nil => intro _ _; simp
  | cons b u ih =>
    intro hnd hz
    obtain ⟨hbu, hndu⟩ := List.nodup_cons.mp hnd
    by_cases hba : b = a
    · subst hba
      have hrest : u.flatMap g = [] := by
        have : ∀ x ∈ u, g x = [] := by
          intro x hx
          exact hz x (List.mem_cons_of_mem b hx) (fun hxa => hbu (hxa ▸ hx))
        rw [flatMap_congr this, flatMap_nil_fun]
      simp [List.flatMap_cons, hrest]
    · have hgb : g b = [] := hz b (List.mem_cons_self b u) hba
      rw [List.flatMap_cons, hgb, List.nil_append,
        ih hndu (fun x hx hxa => hz x (List.mem_cons_of_mem b hx) hxa)]
      by_cases ha : a ∈ u
      · simp [ha]
      · have hab : ¬(a = b) := fun h => hba h.symm
        simp [ha, hab]

/-! ## Order facts for the group-key sort -/

theorem keyLe_iff (a b : String × String × Int) :
    keyLe a b = true ↔
      (a.1 < b.1 ∨ (a.1 = b.1 ∧ (a.2.1 < b.2.1 ∨
        (a.2.1 = b.2.1 ∧ a.2.2 ≤ b.2.2)))) := by
  simp [keyLe]

theorem keyLe_total (a b : String × String × Int) :
    keyLe a b = true ∨ keyLe b a = true := by
  rw [keyLe_iff, keyLe_iff]
  rcases lt_trichotomy a.1 b.1 with h | h | h
  · exact Or.inl (Or.inl h)
  · rcases lt_trichotomy a.2.1 b.2.1 with h2 | h2 | h2
    · exact Or.inl (Or.inr ⟨h, Or.inl h2⟩)
    · rcases le_total a.2.2 b.2.2 with h3 | h3
      · exact Or.inl (Or.inr ⟨h, Or.inr ⟨h2, h3⟩⟩)
      · exact Or.inr (Or.inr ⟨h.symm, Or.inr ⟨h2.symm, h3⟩⟩)
    · exact Or.inr (Or.inr ⟨h.symm, Or.inl h2⟩)
  · exact Or.inr (Or.inl h)

theorem keyLe_trans {a b c : String × String × Int}
    (h1 : keyLe a b = true) (h2 : keyLe b c = true) : keyLe a c = true := by
  rw [keyLe_iff] at *
  rcases h1 with h1 | ⟨e1, h1⟩ <;> rcases h2 with h2 | ⟨e2, h2⟩
  · exact Or.inl (lt_trans h1 h2)
  · exact Or.inl (by rw [← e2]; exact h1)
  · exact Or.inl (by rw [e1]; exact h2)
  · refine Or.inr ⟨e1.trans e2, ?_⟩
    rcases h1 with h1 | ⟨f1, h1⟩ <;> rcases h2 with h2 | ⟨f2, h2⟩
    · exact Or.inl (lt_trans h1 h2)
    · exact Or.inl (by rw [← f2]; exact h1)
    · exact Or.inl (by rw [f1]; exact h2)
    · exact Or.inr ⟨f1.trans f2, le_trans h1 h2⟩

/-! ## Stable sort commutes with filter -/

theorem orderedInsertB_all_le {α : Type} {le : α → α → Bool} {a : α} :
    ∀ {m : List α}, (∀ x ∈ m, le a x = true) → orderedInsertB le a m = a :: m := by
  intro m h
  cases m with
  | nil => rfl
  | cons c u => rw [orderedInsertB, if_pos (h c (List.mem_cons_self c u))]

theorem pairwise_orderedInsertB {α : Type} {le : α → α → Bool}
    (htot : ∀ a b, le a b = true ∨ le b a = true)
    (htrans : ∀ {a b c}, le a b = true → le b c = true → le a c = true)
    (a : α) :
    ∀ {l : List α}, List.Pairwise (fun x y => le x y = true) l →
      List.Pairwise (fun x y => le x y = true) (orderedInsertB le a l) := by
  intro l
  induction l with
  | nil => intro _; simp [orderedInsertB]
  | cons b u ih =>
    intro hp
    obtain ⟨hb, hu⟩ := List.pairwise_cons.mp hp
    by_cases hab : le a b = true
    · rw [orderedInsertB, if_pos hab]
      refine List.pairwise_cons.mpr ⟨?_, hp⟩
      intro x hx
      rcases List.mem_cons.mp hx with rfl | hxu
      · exact hab
      · exact htrans hab (hb x hxu)
    · rw [orderedInsertB, if_neg hab]
      have hba : le b a = true := (htot a b).resolve_left hab
      refine List.pairwise_cons.mpr ⟨?_, ih hu⟩
      intro x hx
      rcases (mem_orderedInsertB le a x u).mp hx with rfl | hxu
      · exact hba
      · exact hb x hxu

theorem pairwise_insertionSortB {α : Type} {le : α → α → Bool}
    (htot : ∀ a b, le a b = true ∨ le b a = true)
    (htrans : ∀ {a b c}, le a b = true → le b c = true → le a c = true) :
    ∀ l : List α, List.Pairwise (fun x y => le x y = true) (insertionSortB le l) := by
  intro l
  induction l with
  | nil => simp [insertionSortB]
  | cons a u ih => exact pairwise_orderedInsertB htot htrans a ih

theorem filter_orderedInsertB {α : Type} (le : α → α → Bool)
    (htrans : ∀ {a b c}, le a b = true → le b c = true → le a c = true)
    (p : α → Bool) (a : α) :
    ∀ {l : List α}, List.Pairwise (fun x y => le x y = true) l →
      (orderedInsertB le a l).filter p =
        if p a then orderedInsertB le a (l.filter p) else l.filter p := by
  intro l
  induction l with
  | nil =>
    intro _
    by_cases hpa : p a = true <;>
      simp [orderedInsertB, List.filter_cons, hpa]
  | cons b u ih =>
    intro hp
    obtain ⟨hb, hu⟩ := List.pairwise_cons.mp hp
    by_cases hab : le a b = true
    · rw [orderedInsertB, if_pos hab]
      by_cases hpa : p a = true
      · by_cases hpb : p b = true
        · simp [List.filter_cons, hpa, hpb, orderedInsertB, hab]
        · have hall : ∀ x ∈ u.filter p, le a x = true := fun x hx =>
            htrans hab (hb x (List.mem_of_mem_filter hx))
          simp [List.filter_cons, hpa, hpb, orderedInsertB_all_le hall]
      · simp [List.filter_cons, hpa]
    · rw [orderedInsertB, if_neg hab]
      by_cases hpb : p b = true
      · by_cases hpa : p a = true
        · simp [List.filter_cons, hpb, hpa, ih hu, orderedInsertB, hab]
        · simp [List.filter_cons, hpb, hpa, ih hu]
      · by_cases hpa : p a = true
        · simp [List.filter_cons, hpb, hpa, ih hu]
        · simp [List.filter_cons, hpb, hpa, ih hu]

theorem filter_insertionSortB {α : Type} (le : α → α → Bool)
    (htot : ∀ a b, le a b = true ∨ le b a = true)
    (htrans : ∀ {a b c}, le a b = true → le b c = true → le a c = true)
    (p : α → Bool) :
    ∀ l : List α,
      (insertionSortB le l).filter p = insertionSortB le (l.filter p) := by
  intro l
  induction l with
  | nil => rfl
  | cons a u ih =>
    rw [insertionSortB,
      filter_orderedInsertB le htrans p a (pairwise_insertionSortB htot htrans u),
      ih, List.filter_cons]
    by_cases hpa : p a = true
    · rw [if_pos hpa, if_pos hpa, insertionSortB]
    · rw [if_neg hpa, if_neg hpa]

theorem uniqueFirstAux_congr {α : Type} [DecidableEq α] :
    ∀ (l : List α) {seen1 seen2 : List α}, (∀ x, x ∈ seen1 ↔ x ∈ seen2) →
      uniqueFirstAux seen1 l = uniqueFirstAux seen2 l := by
  intro l
  induction l with
  | nil => intro _ _ _; rfl
  | cons a u ih =>
    intro seen1 seen2 h
    by_cases ha : a ∈ seen1
    · rw [uniqueFirstAux, if_pos ha, uniqueFirstAux, if_pos ((h a).mp ha), ih h]
    · rw [uniqueFirstAux, if_neg ha, uniqueFirstAux,
        if_neg (fun hc => ha ((h a).mpr hc))]
      congr 1
      exact ih (fun x => by simp only [List.mem_cons, h x])

theorem uniqueFirstAux_extra {α : Type} [DecidableEq α] :
    ∀ (l : List α) {a : α} {seen : List α}, a ∉ l →
      uniqueFirstAux (a :: seen) l = uniqueFirstAux seen l := by
  intro l
  induction l with
  | nil => intro _ _ _; rfl
  | cons b u ih =>
    intro a seen hal
    have hba : b ≠ a := fun h => hal (h ▸ List.mem_cons_self b u)
    have hau : a ∉ u := fun h => hal (List.mem_cons_of_mem b h)
    by_cases hb : b ∈ seen
    · rw [uniqueFirstAux, if_pos (List.mem_cons_of_mem a hb), uniqueFirstAux,
        if_pos hb, ih hau]
    · have hb1 : b ∉ a :: seen := by
        intro hc
        rcases List.mem_cons.mp hc with h | h
        · exact hba h
        · exact hb h
      rw [uniqueFirstAux, if_neg hb1, uniqueFirstAux, if_neg hb]
      congr 1
      calc uniqueFirstAux (b :: a :: seen) u
          = uniqueFirstAux (a :: b :: seen) u :=
            uniqueFirstAux_congr u (fun x => by
              simp only [List.mem_cons]
              tauto)
        _ = uniqueFirstAux (b :: seen) u := ih hau

theorem filter_uniqueFirstAux {α : Type} [DecidableEq α] (p : α → Bool) :
    ∀ (l : List α) (seen : List α),
      (uniqueFirstAux seen l).filter p = uniqueFirstAux seen (l.filter p) := by
  intro l
  induction l with
  | nil => intro _; rfl
  | cons a u ih =>
    intro seen
    by_cases ha : a ∈ seen
    · rw [uniqueFirstAux, if_pos ha, ih, List.filter_cons]
      by_cases hpa : p a = true
      · rw [if_pos hpa, uniqueFirstAux, if_pos ha]
      · rw [if_neg hpa]
    · rw [uniqueFirstAux, if_neg ha, List.filter_cons]
      by_cases hpa : p a = true
      · rw [if_pos hpa, List.filter_cons, if_pos hpa, ih, uniqueFirstAux, if_neg ha]
      · rw [if_neg hpa, List.filter_cons, if_neg hpa, ih]
        exact uniqueFirstAux_extra _ (fun hc => hpa (List.of_mem_filter hc))

theorem filter_uniqueFirst {α : Type} [DecidableEq α] (p : α → Bool) (l : List α) :
    (uniqueFirst l).filter p = uniqueFirst (l.filter p) :=
  filter_uniqueFirstAux p l []

theorem nodup_uniqueSegmentsCat2 (df : List FactRow) :
    (uniqueSegmentsCat2 df).Nodup := by
  unfold uniqueSegmentsCat2
  by_cases h : "Consolidated" ∈ uniqueFirst (df.filterMap (·.segment))
  · rw [if_pos h]
    exact nodup_uniqueFirst _
  · rw [if_neg h]
    refine List.Nodup.append (nodup_uniqueFirst _) (List.nodup_singleton _) ?_
    intro x hx hy
    rw [List.mem_singleton] at hy
    exact h (hy ▸ hx)

/-! ## The (X, A)-projection of the Q4 synthesis -/

theorem filter_eq_self_of {α : Type} {p : α → Bool} {l : List α}
    (h : ∀ a ∈ l, p a = true) : l.filter p = l := by
  induction l with
  | nil => rfl
  | cons a u ih =>
    rw [List.filter_cons, if_pos (h a (List.mem_cons_self a u)),
      ih (fun b hb => h b (List.mem_cons_of_mem a hb))]

theorem projPred_of_fields {rec : FactRow} {t s X A : String}
    (ht : rec.tag = some t) (hs : rec.segment = some s) :
    (rec.tag == some X && segMatches rec.segment A) = (t == X && s == A) := by
  rw [ht, hs]
  show ((some t == some X) &&
    ((some s == some A) || (A == "Consolidated" && (some s : Option String) == none))) =
    (t == X && s == A)
  cases h1 : (t == X) <;> cases h2 : (s == A) <;>
    cases h3 : (A == "Consolidated") <;> simp_all

theorem filter_q4recs {quarterly : List FactRow} {t s : String} {ar : FactRow}
    (X A : String) :
    (q4RecordsForAnnualRow quarterly t s ar).filter
        (fun r => r.tag == some X && segMatches r.segment A) =
      if (t == X && s == A) = true then q4RecordsForAnnualRow quarterly t s ar
      else [] := by
  by_cases h : (t == X && s == A) = true
  · rw [if_pos h]
    apply filter_eq_self_of
    intro rec hrec
    obtain ⟨ht, hs, _⟩ := q4RecordsForAnnualRow_shape hrec
    rw [projPred_of_fields ht hs, h]
  · rw [if_neg h]
    apply filter_eq_nil_of
    intro rec hrec
    obtain ⟨ht, hs, _⟩ := q4RecordsForAnnualRow_shape hrec
    rw [projPred_of_fields ht hs]
    rw [Bool.not_eq_true] at h
    exact h

theorem q4Records_filter_block (segments : List String) (df : List FactRow)
    (X A : String) (hnd : segments.Nodup) :
    (q4Records segments df).filter
        (fun r => r.tag == some X && segMatches r.segment A) =
      if X ∈ uniqueFirst (df.filterMap (·.tag)) then
        if A ∈ segments then
          (annualRowsFor (df.filter (fun r => r.form == "10-K")) X A).flatMap
            (q4RecordsForAnnualRow (df.filter (fun r => r.form == "10-Q")) X A)
        else []
      else [] := by
  simp only [q4Records]
  rw [flatMap_filter_push]
  have harb : ∀ t s : String,
      ((annualRowsFor (df.filter (fun r => r.form == "10-K")) t s).flatMap
        (q4RecordsForAnnualRow (df.filter (fun r => r.form == "10-Q")) t s)).filter
        (fun r => r.tag == some X && segMatches r.segment A) =
      if (t == X && s == A) = true then
        (annualRowsFor (df.filter (fun r => r.form == "10-K")) t s).flatMap
          (q4RecordsForAnnualRow (df.filter (fun r => r.form == "10-Q")) t s)
      else [] := by
    intro t s
    rw [flatMap_filter_push]
    by_cases h : (t == X && s == A) = true
    · rw [if_pos h]
      apply flatMap_congr
      intro ar _
      rw [filter_q4recs X A, if_pos h]
    · rw [if_neg h]
      rw [flatMap_congr (fun ar _ => by rw [filter_q4recs X A, if_neg h])]
      exact flatMap_nil_fun _
  have hseg : ∀ t : String,
      ((segments.flatMap (fun segment =>
        (annualRowsFor (df.filter (fun r => r.form == "10-K")) t segment).flatMap
          (q4RecordsForAnnualRow (df.filter (fun r => r.form == "10-Q")) t segment))).filter
          (fun r => r.tag == some X && segMatches r.segment A)) =
      if (t == X) = true then
        (if A ∈ segments then
          (annualRowsFor (df.filter (fun r => r.form == "10-K")) t A).flatMap
            (q4RecordsForAnnualRow (df.filter (fun r => r.form == "10-Q")) t A)
        else [])
      else [] := by
    intro t
    rw [flatMap_filter_push]
    rw [flatMap_congr (fun s _ => harb t s)]
    by_cases ht : (t == X) = true
    · rw [if_pos ht]
      have hz : ∀ s ∈ segments, s ≠ A →
          (if (t == X && s == A) = true then
            (annualRowsFor (df.filter (fun r => r.form == "10-K")) t s).flatMap
              (q4RecordsForAnnualRow (df.filter (fun r => r.form == "10-Q")) t s)
          else []) = [] := by
        intro s _ hsA
        rw [if_neg]
        intro hc
        exact hsA (eq_of_beq (Bool.and_eq_true _ _ ▸ hc).2)
      rw [flatMap_single hnd hz]
      by_cases hA : A ∈ segments
      · rw [if_pos hA, if_pos hA, if_pos]
        rw [ht, Bool.true_and]
        exact beq_self_eq_true A
      · rw [if_neg hA, if_neg hA]
    · rw [if_neg ht]
      rw [flatMap_congr (fun s _ => by
        rw [if_neg]
        intro hc
        exact ht (Bool.and_eq_true _ _ ▸ hc).1)]
      exact flatMap_nil_fun _
  rw [flatMap_congr (fun t _ => hseg t)]
  have hz2 : ∀ t ∈ uniqueFirst (df.filterMap (·.tag)), t ≠ X →
      (if (t == X) = true then
        (if A ∈ segments then
          (annualRowsFor (df.filter (fun r => r.form == "10-K")) t A).flatMap
            (q4RecordsForAnnualRow (df.filter (fun r => r.form == "10-Q")) t A)
        else [])
      else []) = [] := by
    intro t _ htX
    rw [if_neg]
    intro hc
    exact htX (eq_of_beq hc)
  rw [flatMap_single (nodup_uniqueFirst _) hz2]
  by_cases hX : X ∈ uniqueFirst (df.filterMap (·.tag))
  · rw [if_pos hX, if_pos hX, if_pos (beq_self_eq_true X)]
  · rw [if_neg hX, if_neg hX]

theorem annualXA_eq (df : List FactRow) (X A : String) :
    annualRowsFor (df.filter (fun r => r.form == "10-K")) X A =
      (df.filter (fun r => segMatches r.segment A)).filter
        (fun r => r.form == "10-K" && r.tag == some X) := by
  unfold annualRowsFor
  rw [filter_filter_bool, filter_filter_bool]
  apply List.filter_congr
  intro r _
  cases h1 : (r.form == "10-K") <;> cases h2 : (r.tag == some X) <;>
    cases h3 : segMatches r.segment A <;> simp [h1, h2, h3]

theorem quarterlyWindow_restrict (df : List FactRow) (X A : String)
    (fy : Int) (fy_end : Date) :
    quarterlyWindow (df.filter (fun r => r.form == "10-Q")) X A fy fy_end =
      quarterlyWindow ((df.filter (fun r => segMatches r.segment A)).filter
        (fun r => r.form == "10-Q")) X A fy fy_end := by
  unfold quarterlyWindow
  rw [filter_filter_bool, filter_filter_bool, filter_filter_bool]
  apply List.filter_congr
  intro r _
  cases h1 : (r.form == "10-Q") <;> cases h2 : (r.tag == some X) <;>
    cases h3 : segMatches r.segment A <;>
    cases h4 : inFiscalWindow fy fy_end r.end_date <;> simp [h1, h2, h3, h4]

theorem q4RecordsForAnnualRow_quarterly_congr {q1 q2 : List FactRow}
    {t s : String} {ar : FactRow}
    (h : ∀ fy fy_end, quarterlyWindow q1 t s fy fy_end =
      quarterlyWindow q2 t s fy fy_end) :
    q4RecordsForAnnualRow q1 t s ar = q4RecordsForAnnualRow q2 t s ar := by
  simp only [q4RecordsForAnnualRow, h]

theorem q4ProjA_nil_of_no_tag (df : List FactRow) (X A : String)
    (h : X ∉ uniqueFirst (df.filterMap (·.tag))) :
    q4ProjA (df.filter (fun r => segMatches r.segment A)) X A = [] := by
  unfold q4ProjA
  have hnil : (df.filter (fun r => segMatches r.segment A)).filter
      (fun r => r.form == "10-K" && r.tag == some X) = [] := by
    apply filter_eq_nil_of
    intro r hr
    have hrdf : r ∈ df := List.mem_of_mem_filter hr
    have htne : r.tag ≠ some X := by
      intro hc
      exact h (tag_mem_uniqueTags ⟨r, hrdf, hc⟩)
    have htf : (r.tag == some X) = false := by
      rw [beq_eq_false_iff_ne]
      exact htne
    rw [htf, Bool.and_false]
  rw [hnil]
  rfl

theorem no_seg_of_not_mem (df : List FactRow) (A : String)
    (h : A ∉ uniqueSegmentsCat2 df) :
    A ≠ "Consolidated" ∧ ∀ r ∈ df, r.segment ≠ some A := by
  constructor
  · intro hc
    exact h (hc ▸ consolidated_mem_uniqueSegmentsCat2 df)
  · intro r hr hc
    exact h (seg_mem_uniqueSegmentsCat2 hr hc)

theorem afacts_nil_of_no_seg (df : List FactRow) (A : String)
    (hA1 : A ≠ "Consolidated") (hA2 : ∀ r ∈ df, r.segment ≠ some A) :
    df.filter (fun r => segMatches r.segment A) = [] := by
  apply filter_eq_nil_of
  intro r hr
  cases hsm : segMatches r.segment A
  · rfl
  · rcases segMatches_cases hsm with h | ⟨h, _⟩
    · exact absurd h (hA2 r hr)
    · exact absurd h hA1

/-- The segment-A, concept-X slice of the synthesized Q4 records is a
function of the segment-A facts alone. -/
theorem q4_proj_eq (df : List FactRow) (X A : String) :
    (q4Records (uniqueSegmentsCat2 df) df).filter
        (fun r => r.tag == some X && segMatches r.segment A) =
      q4ProjA (df.filter (fun r => segMatches r.segment A)) X A := by
  rw [q4Records_filter_block _ _ X A (nodup_uniqueSegmentsCat2 df)]
  by_cases hX : X ∈ uniqueFirst (df.filterMap (·.tag))
  · rw [if_pos hX]
    by_cases hA : A ∈ uniqueSegmentsCat2 df
    · rw [if_pos hA]
      unfold q4ProjA
      rw [annualXA_eq]
      apply flatMap_congr
      intro ar _
      exact q4RecordsForAnnualRow_quarterly_congr
        (fun fy fy_end => quarterlyWindow_restrict df X A fy fy_end)
    · rw [if_neg hA]
      obtain ⟨h1, h2⟩ := no_seg_of_not_mem df A hA
      rw [afacts_nil_of_no_seg df A h1 h2]
      rfl
  · rw [if_neg hX]
    exact (q4ProjA_nil_of_no_tag df X A hX).symm

/-! ## The (X, A)-projection of make_quarters_discrete -/

theorem flatMap_guard {α β : Type} (g : α → Bool) (f : α → List β) :
    ∀ l : List α,
      l.flatMap (fun k => if g k = true then f k else []) = (l.filter g).flatMap f := by
  intro l
  induction l with
  | nil => rfl
  | cons a u ih =>
    rw [List.flatMap_cons, List.filter_cons]
    by_cases h : g a = true
    · rw [if_pos h, if_pos h, List.flatMap_cons, ih]
    · rw [if_neg h, if_neg h, List.nil_append, ih]

theorem filterMap_filter_key {α β : Type} (f : α → Option β) (g : β → Bool) :
    ∀ l : List α,
      (l.filterMap f).filter g =
        (l.filter (fun x => ((f x).map g).getD false)).filterMap f := by
  intro l
  induction l with
  | nil => rfl
  | cons a u ih =>
    cases hf : f a with
    | none =>
      simp [List.filterMap_cons, hf, List.filter_cons, ih]
    | some b =>
      by_cases hg : g b = true <;>
        simp [List.filterMap_cons, hf, List.filter_cons, hg, ih]

theorem mqdKey_eq_some {r : FactRow} {k : String × String × Int}
    (h : mqdKey r = some k) :
    r.tag = some k.1 ∧ r.segment = some k.2.1 ∧
      ∃ e : Date, r.end_date = some e ∧ e.year = k.2.2 := by
  unfold mqdKey at h
  cases htg : r.tag with
  | none => rw [htg] at h; cases hsg : r.segment <;> cases hed : r.end_date <;>
      simp [hsg, hed] at h
  | some t =>
    rw [htg] at h
    cases hsg : r.segment with
    | none => rw [hsg] at h; cases hed : r.end_date <;> simp [hed] at h
    | some s =>
      rw [hsg] at h
      cases hed : r.end_date with
      | none => rw [hed] at h; simp at h
      | some e =>
        rw [hed] at h
        simp only [Option.some_inj] at h
        subst h
        exact ⟨rfl, rfl, e, rfl, rfl⟩

theorem mqdGroup_fields {q : List FactRow} {k : String × String × Int}
    {rec : FactRow} (h : rec ∈ mqdGroup q k) :
    rec.tag = some k.1 ∧ rec.segment = some k.2.1 := by
  have hrow : ∀ x ∈ sortByEnd (rowsOfKey q k),
      x.tag = some k.1 ∧ x.segment = some k.2.1 := by
    intro x hx
    have hx2 : x ∈ rowsOfKey q k := (mem_insertionSortB _ x _).mp hx
    obtain ⟨_, hk⟩ := List.mem_filter.mp hx2
    obtain ⟨ht, hs, _⟩ := mqdKey_eq_some (eq_of_beq hk)
    exact ⟨ht, hs⟩
  unfold mqdGroup at h
  by_cases hy : (sortByEnd (rowsOfKey q k)).any (·.isYTD) = true
  · rw [if_pos hy] at h
    obtain ⟨x, hx, htag, hend, hseg, _⟩ := diffValues_fields 0 _ h
    obtain ⟨ht, hs⟩ := hrow x hx
    exact ⟨htag.trans ht, hseg.trans hs⟩
  · rw [if_neg hy] at h
    exact hrow rec h

theorem filter_mqdGroup (q : List FactRow) (k : String × String × Int)
    (X A : String) :
    (mqdGroup q k).filter (fun r => r.tag == some X && segMatches r.segment A) =
      if (k.1 == X && k.2.1 == A) = true then mqdGroup q k else [] := by
  by_cases h : (k.1 == X && k.2.1 == A) = true
  · rw [if_pos h]
    apply filter_eq_self_of
    intro rec hrec
    obtain ⟨ht, hs⟩ := mqdGroup_fields hrec
    rw [projPred_of_fields ht hs, h]
  · rw [if_neg h]
    apply filter_eq_nil_of
    intro rec hrec
    obtain ⟨ht, hs⟩ := mqdGroup_fields hrec
    rw [projPred_of_fields ht hs]
    rw [Bool.not_eq_true] at h
    exact h

theorem segMatches_some (s A : String) : segMatches (some s) A = (s == A) := by
  show ((s == A) || (A == "Consolidated" && false)) = (s == A)
  rw [Bool.and_false, Bool.or_false]

theorem pk_pointwise {r : FactRow} (X A : String) (hinv : r.segment.isSome = true) :
    (isRealQ r &&
        ((mqdKey r).map (fun k => k.1 == X && k.2.1 == A)).getD false) =
      (segMatches r.segment A && (isRealQ r && (r.tag == some X))) := by
  cases hs : r.segment with
  | none => rw [hs] at hinv; simp at hinv
  | some s =>
    cases ht : r.tag with
    | none =>
      have h1 : mqdKey r = none := by
        unfold mqdKey
        rw [ht]
      have h2 : ((none : Option String) == some X) = false := rfl
      rw [h1, h2]
      simp
    | some t =>
      cases he : r.end_date with
      | none =>
        have h1 : mqdKey r = none := by
          unfold mqdKey
          rw [ht, hs, he]
        have h2 : isRealQ r = false := by
          unfold isRealQ
          rw [he]
          exact Bool.and_false _
        rw [h1, h2]
        simp
      | some e =>
        have h1 : mqdKey r = some (t, s, e.year) := by
          unfold mqdKey
          rw [ht, hs, he]
        rw [h1, segMatches_some]
        show (isRealQ r && ((t == X) && (s == A))) =
          ((s == A) && (isRealQ r && (t == X)))
        cases hq : isRealQ r <;> cases c1 : (t == X) <;> cases c2 : (s == A) <;>
          simp [hq, c1, c2]

theorem rowsOfKey_restrict (df : List FactRow) (k : String × String × Int)
    (A : String) (hk : k.2.1 = A) :
    rowsOfKey (df.filter isRealQ) k =
      rowsOfKey ((df.filter (fun r => segMatches r.segment A)).filter isRealQ) k := by
  unfold rowsOfKey
  rw [filter_filter_bool, filter_filter_bool, filter_filter_bool]
  apply List.filter_congr
  intro r _
  cases hkeq : (mqdKey r == some k)
  · simp [hkeq]
  · obtain ⟨_, hseg, _⟩ := mqdKey_eq_some (eq_of_beq hkeq)
    have hsm : segMatches r.segment A = true := by
      rw [hseg, hk, segMatches_some]
      exact beq_self_eq_true A
    simp [hkeq, hsm]

theorem mqdGroup_restrict (df : List FactRow) (k : String × String × Int)
    (A : String) (hk : k.2.1 = A) :
    mqdGroup (df.filter isRealQ) k =
      mqdGroup ((df.filter (fun r => segMatches r.segment A)).filter isRealQ) k := by
  unfold mqdGroup
  rw [rowsOfKey_restrict df k A hk]

/-- The segment-A, concept-X slice of make_quarters_discrete is a function
of the segment-A facts alone, provided every fact carries an explicit
segment label (the data model's Consolidated-sentinel invariant). -/
theorem mqd_proj_eq (df : List FactRow) (X A : String)
    (hinv : ∀ r ∈ df, r.segment.isSome = true) :
    (make_quarters_discrete df).filter
        (fun r => r.tag == some X && segMatches r.segment A) =
      mqdProjA (df.filter (fun r => segMatches r.segment A)) X := by
  have hP1 : (df.filter (fun r => !isRealQ r)).filter
        (fun r => r.tag == some X && segMatches r.segment A) =
      (df.filter (fun r => segMatches r.segment A)).filter
        (fun r => !isRealQ r && r.tag == some X) := by
    rw [filter_filter_bool, filter_filter_bool]
    apply List.filter_congr
    intro r _
    cases h1 : (!isRealQ r) <;> cases h2 : (r.tag == some X) <;>
      cases h3 : segMatches r.segment A <;> simp [h1, h2, h3]
  have hP2 : ((df.filter isRealQ).filter (fun r => !r.isYTD)).filter
        (fun r => r.tag == some X && segMatches r.segment A) =
      ((df.filter (fun r => segMatches r.segment A)).filter isRealQ).filter
        (fun r => !r.isYTD && r.tag == some X) := by
    rw [filter_filter_bool, filter_filter_bool, filter_filter_bool,
      filter_filter_bool]
    apply List.filter_congr
    intro r _
    cases h0 : isRealQ r <;> cases h1 : (!r.isYTD) <;>
      cases h2 : (r.tag == some X) <;> cases h3 : segMatches r.segment A <;>
      simp [h0, h1, h2, h3]
  have hkeys : ((df.filter isRealQ).filterMap mqdKey).filter
        (fun k => k.1 == X && k.2.1 == A) =
      (((df.filter (fun r => segMatches r.segment A)).filter isRealQ).filter
        (fun r => r.tag == some X)).filterMap mqdKey := by
    rw [filterMap_filter_key, filter_filter_bool, filter_filter_bool,
      filter_filter_bool]
    refine congrArg (List.filterMap mqdKey) ?_
    apply List.filter_congr
    intro r hr
    exact pk_pointwise X A (hinv r hr)
  have hP3 : ((mqdKeys (df.filter isRealQ)).flatMap
        (mqdGroup (df.filter isRealQ))).filter
        (fun r => r.tag == some X && segMatches r.segment A) =
      (insertionSortB keyLe (uniqueFirst
          ((((df.filter (fun r => segMatches r.segment A)).filter isRealQ).filter
            (fun r => r.tag == some X)).filterMap mqdKey))).flatMap
        (mqdGroup ((df.filter (fun r => segMatches r.segment A)).filter isRealQ)) := by
    rw [flatMap_filter_push,
      flatMap_congr (fun k _ => filter_mqdGroup (df.filter isRealQ) k X A),
      flatMap_guard]
    unfold mqdKeys
    rw [filter_insertionSortB keyLe keyLe_total (fun h1 h2 => keyLe_trans h1 h2),
      filter_uniqueFirst, hkeys]
    apply flatMap_congr
    intro k hk
    have hkA : k.2.1 = A := by
      have h1 := (mem_insertionSortB _ k _).mp hk
      have h2 := (mem_uniqueFirst k _).mp h1
      obtain ⟨r, hr, hkey⟩ := List.mem_filterMap.mp h2
      obtain ⟨_, hseg, _⟩ := mqdKey_eq_some hkey
      have hra : r ∈ df.filter (fun r => segMatches r.segment A) :=
        List.mem_of_mem_filter (List.mem_of_mem_filter hr)
      have hsm := (List.mem_filter.mp hra).2
      rcases segMatches_cases hsm with h | ⟨_, hnone⟩
      · rw [hseg] at h
        exact Option.some_inj.mp h
      · rw [hseg] at hnone
        simp at hnone
    exact mqdGroup_restrict df k A hkA
  by_cases hdf : df.isEmpty = true
  · have h0 : df = [] := List.isEmpty_iff.mp hdf
    subst h0
    rfl
  · by_cases hk : (mqdKeys (df.filter isRealQ)).isEmpty = true
    · have hout : make_quarters_discrete df = df := by
        simp only [make_quarters_discrete]
        rw [if_neg hdf, if_pos hk]
      rw [hout]
      have hnokey : ∀ r ∈ df.filter isRealQ, mqdKey r = none := by
        intro r hr
        cases hkey : mqdKey r with
        | none => rfl
        | some k =>
          exfalso
          have h1 : k ∈ (df.filter isRealQ).filterMap mqdKey :=
            List.mem_filterMap.mpr ⟨r, hr, hkey⟩
          have h2 : k ∈ uniqueFirst ((df.filter isRealQ).filterMap mqdKey) :=
            (mem_uniqueFirst k _).mpr h1
          have h3 : k ∈ mqdKeys (df.filter isRealQ) :=
            (mem_insertionSortB _ k _).mpr h2
          rw [List.isEmpty_iff.mp hk] at h3
          exact absurd h3 (List.not_mem_nil k)
      have hnoRQX : ∀ r ∈ df, (r.tag == some X) = true → isRealQ r = false := by
        intro r hr htag
        cases hrq : isRealQ r
        · rfl
        · exfalso
          have hrq' : r ∈ df.filter isRealQ := List.mem_filter.mpr ⟨hr, hrq⟩
          have hnone := hnokey r hrq'
          have htag' : r.tag = some X := eq_of_beq htag
          have hseg' := hinv r hr
          have hend' : r.end_date.isSome = true := by
            unfold isRealQ at hrq
            exact (Bool.and_eq_true _ _ ▸ hrq).2
          cases hsg : r.segment with
          | none => rw [hsg] at hseg'; simp at hseg'
          | some s =>
            cases hed : r.end_date with
            | none => rw [hed] at hend'; simp at hend'
            | some e => simp [mqdKey, htag', hsg, hed] at hnone
      have hc2 : ((df.filter (fun r => segMatches r.segment A)).filter
          isRealQ).filter (fun r => !r.isYTD && r.tag == some X) = [] := by
        apply filter_eq_nil_of
        intro r hr
        have hrdf : r ∈ df :=
          List.mem_of_mem_filter (List.mem_of_mem_filter hr)
        have hrq : isRealQ r = true := (List.mem_filter.mp hr).2
        cases htg : (r.tag == some X)
        · simp [htg]
        · have hfalse := hnoRQX r hrdf htg
          simp [hfalse] at hrq
      have hc3 : ((df.filter (fun r => segMatches r.segment A)).filter
          isRealQ).filter (fun r => r.tag == some X) = [] := by
        apply filter_eq_nil_of
        intro r hr
        have hrdf : r ∈ df :=
          List.mem_of_mem_filter (List.mem_of_mem_filter hr)
        have hrq : isRealQ r = true := (List.mem_filter.mp hr).2
        cases htg : (r.tag == some X)
        · rfl
        · have hfalse := hnoRQX r hrdf htg
          simp [hfalse] at hrq
      unfold mqdProjA
      rw [hc2, hc3]
      have hfinal : df.filter (fun r => r.tag == some X && segMatches r.segment A) =
          (df.filter (fun r => segMatches r.segment A)).filter
            (fun r => !isRealQ r && r.tag == some X) := by
        rw [filter_filter_bool]
        apply List.filter_congr
        intro r hr
        cases htg : (r.tag == some X)
        · simp [htg]
        · have hnr := hnoRQX r hr htg
          cases h3 : segMatches r.segment A <;> simp [htg, h3, hnr]
      rw [hfinal]
      simp [uniqueFirst, uniqueFirstAux, insertionSortB]
    · have hout : make_quarters_discrete df =
          (df.filter (fun r => !isRealQ r)) ++
            ((df.filter isRealQ).filter (fun r => !r.isYTD)) ++
            (mqdKeys (df.filter isRealQ)).flatMap (mqdGroup (df.filter isRealQ)) := by
        simp only [make_quarters_discrete]
        rw [if_neg hdf, if_neg hk]
      rw [hout, List.filter_append, List.filter_append, hP1, hP2, hP3]
      rfl

/-- C8 (amended): segment isolation holds for stores satisfying the data
model's never-null-segment invariant — for any concept X and segment A,
both the synthesized Q4 records and the normalized store restricted to
(X, A) coincide on any two stores agreeing on their segment-A facts, so
facts tagged with another segment are neither read nor altered.  (Without
the invariant the property fails — see the counterexample, where a
null-segment YTD fact is dropped by the groupby exactly when facts of
another segment are present.) -/
theorem C8_amended (df1 df2 : List FactRow) (X A : String)
    (hinv1 : ∀ r ∈ df1, r.segment.isSome = true)
    (hinv2 : ∀ r ∈ df2, r.segment.isSome = true)
    (hA : df1.filter (fun r => segMatches r.segment A) =
      df2.filter (fun r => segMatches r.segment A)) :
    (q4Records (uniqueSegmentsCat2 df1) df1).filter
        (fun r => r.tag == some X && segMatches r.segment A) =
      (q4Records (uniqueSegmentsCat2 df2) df2).filter
        (fun r => r.tag == some X && segMatches r.segment A) ∧
    (make_quarters_discrete df1).filter
        (fun r => r.tag == some X && segMatches r.segment A) =
      (make_quarters_discrete df2).filter
        (fun r => r.tag == some X && segMatches r.segment A) := by
  constructor
  · rw [q4_proj_eq, q4_proj_eq, hA]
  · rw [mqd_proj_eq df1 X A hinv1, mqd_proj_eq df2 X A hinv2, hA]

/-- C8 witness: adding a segment-B fact to the worked scenario changes
neither the synthesized nor the normalized (Revenues, Consolidated)
records. -/
theorem C8_witness :
    (q4Records (uniqueSegmentsCat2 specScenarioStore) specScenarioStore).filter
        (fun r => r.tag == some "Revenues" &&
          segMatches r.segment "Consolidated") =
      (q4Records
          (uniqueSegmentsCat2
            (specScenarioStore ++ [mkQS "Other" "B" 5 2023 7 1 2023 9 30]))
          (specScenarioStore ++ [mkQS "Other" "B" 5 2023 7 1 2023 9 30])).filter
        (fun r => r.tag == some "Revenues" &&
          segMatches r.segment "Consolidated") ∧
    (make_quarters_discrete specScenarioStore).filter
        (fun r => r.tag == some "Revenues" &&
          segMatches r.segment "Consolidated") =
      (make_quarters_discrete
          (specScenarioStore ++ [mkQS "Other" "B" 5 2023 7 1 2023 9 30])).filter
        (fun r => r.tag == some "Revenues" &&
          segMatches r.segment "Consolidated") :=
  C8_amended specScenarioStore
    (specScenarioStore ++ [mkQS "Other" "B" 5 2023 7 1 2023 9 30])
    "Revenues" "Consolidated" (by decide) (by decide) (by decide)
